import Mathlib

/-!
# Shephard: formal model of the side-channel sync engine

A shallow embedding of the `shephard` repository's core code
(`src/git.rs`, `src/workflow.rs`, `src/config.rs`).  The program shells
out to the `git` binary; we model each subprocess call site by an oracle
field in an environment record (`GitEnv` / `WorkflowEnv`), and every
embedded function additionally returns the list of git commands it
issued (its *trace*), so that frame properties ("no command moves HEAD",
"all staging goes through the temporary index") can be stated about the
commands the engine runs.

String manipulation (Rust's `trim`, `lines`, `split_once`, `replace`,
`starts_with`, substring containment) is re-implemented over `List Char`
with structural recursion so that every definition evaluates inside the
kernel (`decide` / `rfl`).  Rust's `trim` uses the Unicode `White_Space`
property; we model the ASCII subset (space, tab, CR, LF), which is the
only whitespace the claims exercise.
-/

namespace Shephard

/-! ## String utilities over `List Char` -/

/-- ASCII whitespace, the fragment of Rust's `char::is_whitespace`
relevant here. -/
def chIsWs (c : Char) : Bool :=
  c = ' ' || c = '\t' || c = '\n' || c = '\r'

/-- Drop leading and trailing whitespace: Rust's `str::trim`. -/
def trimL (l : List Char) : List Char :=
  ((l.dropWhile chIsWs).reverse.dropWhile chIsWs).reverse

/-- Rust's `str::trim` on `String`. -/
def rustTrim (s : String) : String :=
  ⟨trimL s.data⟩

/-- Split on `'\n'`, keeping every (possibly empty) piece. -/
def splitNl : List Char → List (List Char)
  | [] => [[]]
  | c :: rest =>
    if c = '\n' then [] :: splitNl rest
    else
      match splitNl rest with
      | [] => [[c]]
      | l :: ls => (c :: l) :: ls

/-- Strip one trailing `'\r'`, as Rust's `str::lines` does per line. -/
def stripCr (l : List Char) : List Char :=
  if l.getLast? = some '\r' then l.dropLast else l

/-- Rust's `str::lines`: split-terminator on `'\n'` (no trailing empty
line for a trailing newline; the empty string has no lines), stripping a
final `'\r'` from each line. -/
def rustLines (s : String) : List String :=
  let ps := splitNl s.data
  let ps := if ps.getLast? = some [] then ps.dropLast else ps
  ps.map (fun l => ⟨stripCr l⟩)

/-- Rust's `str::split_once('\t')`: the part before the first tab and
the whole rest of the string after it. -/
def splitOnceTabL : List Char → Option (List Char × List Char)
  | [] => none
  | c :: rest =>
    if c = '\t' then some ([], rest)
    else (splitOnceTabL rest).map (fun p => (c :: p.1, p.2))

/-- Rust's `str::split_once('\t')` on `String`. -/
def splitOnceTab (s : String) : Option (String × String) :=
  (splitOnceTabL s.data).map (fun p => (⟨p.1⟩, ⟨p.2⟩))

/-- Rust's `str::starts_with` for a string pattern. -/
def rustStartsWith (s pat : String) : Bool :=
  pat.data.isPrefixOf s.data

/-- Does `pat` occur as a contiguous sublist of `l`? -/
def isInfixL (pat l : List Char) : Bool :=
  match l with
  | [] => pat.isEmpty
  | _ :: t => pat.isPrefixOf l || isInfixL pat t

/-- Rust's `str::contains` for a string pattern. -/
def rustContains (s pat : String) : Bool :=
  isInfixL pat.data s.data

/-- Lexicographic strict order on character lists. -/
def ltCharsL : List Char → List Char → Bool
  | [], [] => false
  | [], _ :: _ => true
  | _ :: _, [] => false
  | a :: as, b :: bs =>
    if a < b then true else if b < a then false else ltCharsL as bs

/-- Lexicographic strict order on code points, which agrees with Rust's
byte-wise `Ord` on `String` because UTF-8 preserves code point order. -/
def strLt (s t : String) : Bool :=
  ltCharsL s.data t.data

/-- Sorted-set insertion under `strLt`: the iteration order of a
`BTreeSet<String>` (sorted, duplicates collapsed). -/
def insertSortedStr (s : String) : List String → List String
  | [] => [s]
  | x :: xs =>
    if strLt s x then s :: x :: xs
    else if s = x then x :: xs
    else x :: insertSortedStr s xs

/-- Rust's `Vec::join(", ")`. -/
def joinCommaSpace (xs : List String) : String :=
  String.intercalate ", " xs

example : rustTrim "  abc\n" = "abc" := by decide
example : rustLines "a\nb\n" = ["a", "b"] := by decide
example : rustLines "" = [] := by decide
example : rustLines "\n" = [""] := by decide
example : splitOnceTab "100644 abc 1\tdir/file.txt" =
    some ("100644 abc 1", "dir/file.txt") := by decide
example : rustStartsWith "refs/tags/x" "refs/" = true := by decide
example : rustContains "x non-fast-forward y" "non-fast-forward" = true := by decide
example : insertSortedStr "b" (insertSortedStr "a" (insertSortedStr "b" [])) =
    ["a", "b"] := by decide

/-! ## Data model (`src/config.rs`, `src/git.rs`) -/

/-- From `git.rs`: `pub enum SideChannelSyncResult`. -/
inductive SideChannelSyncResult
  | Pushed
  | NoChanges
deriving DecidableEq, Repr

/-- From `git.rs`: `enum SideChannelPushResult`. -/
inductive SideChannelPushResult
  | Pushed
  | NonFastForward
deriving DecidableEq, Repr

/-- From `config.rs`: `pub struct SideChannelConfig`. -/
structure SideChannelConfig where
  enabled : Bool
  remote_name : String
  branch_name : String
deriving DecidableEq, Repr

/-- One subprocess invocation of the `git` binary: its argument list and
the environment overrides merged into the child environment. -/
structure GitCmd where
  args : List String
  env : List (String × String)
deriving DecidableEq, Repr

/-- Raw outcome of a `git merge-tree` invocation (exit status, both
captured streams). -/
structure MergeTreeOut where
  exitOk : Bool
  stdout : String
  stderr : String
deriving DecidableEq, Repr

/-- Raw outcome of a `git push` invocation. -/
structure PushOut where
  exitOk : Bool
  stdout : String
  stderr : String
deriving DecidableEq, Repr

/-- Oracle for the git subprocess calls made by `git.rs`.  One field per
call site; `Except String _` carries either the captured stdout or the
formatted failure message produced by `run_git`-style error handling.
Calls that re-read the outside world after the mid-loop re-fetch
(`rev-parse --verify`, `merge-base`, `merge-tree`, `push`) are indexed
by the attempt number, since the fetched state may have changed between
the two iterations of the retry loop.  `commitTreeFn` is a function of
tree, parent and message because commit identifiers are
content-addressed. -/
structure GitEnv where
  /-- Rust's `repo.display()`, used in formatted error messages. -/
  repoDisplay : String
  /-- Output of `run_git(repo, ["remote", "get-url", name])`. -/
  remoteGetUrl : Except String String
  /-- Output of `run_git_with_env(repo, ["read-tree", "HEAD"], env)`. -/
  readTreeHead : Except String String
  /-- Output of `run_git_with_env(repo, ["add", "-A"], env)`. -/
  stageAllOut : Except String String
  /-- Output of `run_git_with_env(repo, ["add", "-u"], env)`. -/
  stageTrackedOut : Except String String
  /-- Exit code of `git diff --cached --quiet`: `some false` for 0 (no
  staged diff), `some true` for 1 (staged diff), `none` for any other
  exit status. -/
  diffCachedExit : Option Bool
  /-- Output of `run_git_with_env(repo, ["write-tree"], env)`: stdout. -/
  writeTreeOut : Except String String
  /-- Output of `run_git(repo, ["rev-parse", "HEAD"])`: stdout. -/
  revParseHead : Except String String
  /-- Result of `rev_parse_optional(repo, remote_ref)` at attempt `i`: the trimmed
  commit id when the ref resolves, `none` otherwise. -/
  sideTipAt : Nat → Option String
  /-- Result of `git merge-base --is-ancestor a d` at attempt `i`: `.ok` for exit
  codes 0/1, `.error` with the formatted message otherwise. -/
  isAncestorAt : Nat → String → String → Except String Bool
  /-- Output of `run_git(repo, ["merge-base", left, right])` at attempt `i`. -/
  mergeBaseAt : Nat → String → String → Except String String
  /-- Output of `git commit-tree tree -m message [-p parent]`: stdout on success,
  else stderr. -/
  commitTreeFn : String → Option String → String → Except String String
  /-- Outcome of `git merge-tree --write-tree --merge-base base c1 c2` at attempt
  `i`. -/
  mergeTreeAt : Nat → String → String → String → MergeTreeOut
  /-- Outcome of `git push remote hash:ref` at attempt `i`. -/
  pushAt : Nat → PushOut
  /-- Output of `run_git(repo, ["fetch", remote, branch])`. -/
  fetchBranchOut : Except String String

/-- Result of an embedded operation: an `anyhow::Result` together with
the trace of git commands issued. -/
abbrev TraceRes (α : Type) := Except String α × List GitCmd

/-! ## `src/git.rs` -/

/-- Embeds `git.rs::ensure_remote_exists`: `remote get-url`, with the
`missing side-channel remote '<name>'` context on failure. -/
def ensure_remote_exists (env : GitEnv) (remote_name : String) :
    TraceRes Unit :=
  (match env.remoteGetUrl with
    | .ok _ => .ok ()
    | .error e =>
        .error ("missing side-channel remote '" ++ remote_name ++ "': " ++ e),
   [⟨["remote", "get-url", remote_name], []⟩])

/-- Embeds `git.rs::commit_tree`: `git commit-tree <tree> -m <message>
[-p <parent>]`, trimming the printed hash. -/
def commit_tree (env : GitEnv) (tree : String) (parent : Option String)
    (message : String) : TraceRes String :=
  let args := ["commit-tree", tree, "-m", message] ++
    (match parent with
      | some p => ["-p", p]
      | none => [])
  (match env.commitTreeFn tree parent message with
    | .ok out => .ok (rustTrim out)
    | .error stderrOut =>
        .error ("git commit-tree failed in " ++ env.repoDisplay ++ ": " ++
          rustTrim stderrOut),
   [⟨args, []⟩])

/-- Embeds `git.rs::conflict_paths_from_merge_tree_output`: for every output
line containing a tab, insert everything after the first tab into a
`BTreeSet`, then list the set in order (sorted, deduplicated). -/
def conflict_paths_from_merge_tree_output (output : String) : List String :=
  (rustLines output).foldl
    (fun acc line =>
      match splitOnceTab line with
      | some p => insertSortedStr p.2 acc
      | none => acc)
    []

/-- Embeds `git.rs::has_staged_changes_with_env`: `git diff --cached --quiet`
interpreting exit 0 as clean, 1 as dirty, anything else as failure. -/
def has_staged_changes_with_env (env : GitEnv)
    (cmdEnv : List (String × String)) : TraceRes Bool :=
  (match env.diffCachedExit with
    | some b => .ok b
    | none =>
        .error ("git diff --cached --quiet failed in " ++ env.repoDisplay),
   [⟨["diff", "--cached", "--quiet"], cmdEnv⟩])

/-- Embeds `git.rs::merge_side_tip_into_snapshot` at attempt `i`.  Absent tip
or tip already an ancestor of the recorded HEAD: the snapshot tree is
used as-is.  Otherwise a throwaway commit carrying the snapshot tree is
merged with the tip via `git merge-tree --write-tree` over their
merge-base; conflicts (tab-separated paths in the failing output)
produce the `side-channel merge conflict` error. -/
def merge_side_tip_into_snapshot (env : GitEnv) (i : Nat)
    (local_head local_tree : String) (side_tip : Option String) :
    TraceRes String :=
  match side_tip with
  | none => (.ok local_tree, [])
  | some tip =>
    let ancCmd : GitCmd := ⟨["merge-base", "--is-ancestor", tip, local_head], []⟩
    match env.isAncestorAt i tip local_head with
    | .error e => (.error e, [ancCmd])
    | .ok true => (.ok local_tree, [ancCmd])
    | .ok false =>
      let mbCmd : GitCmd := ⟨["merge-base", local_head, tip], []⟩
      match env.mergeBaseAt i local_head tip with
      | .error e => (.error e, [ancCmd, mbCmd])
      | .ok mbOut =>
        let base := rustTrim mbOut
        let ct := commit_tree env local_tree (some local_head)
          "shephard side-channel local snapshot"
        match ct.1 with
        | .error e => (.error e, ancCmd :: mbCmd :: ct.2)
        | .ok local_commit =>
          let out := env.mergeTreeAt i base local_commit tip
          let trace := ancCmd :: mbCmd :: ct.2 ++
            [⟨["merge-tree", "--write-tree", "--merge-base", base,
               local_commit, tip], []⟩]
          let res : Except String String :=
            if out.exitOk then
              match rustLines out.stdout with
              | [] =>
                  .error ("git merge-tree returned no tree for remote tip " ++
                    tip ++ " in " ++ env.repoDisplay)
              | l :: _ =>
                let tr := rustTrim l
                if tr = "" then
                  .error ("git merge-tree returned no tree for remote tip " ++
                    tip ++ " in " ++ env.repoDisplay)
                else .ok tr
            else
              let conflicts := conflict_paths_from_merge_tree_output out.stdout
              if conflicts.isEmpty then
                .error ("git merge-tree failed in " ++ env.repoDisplay ++
                  " while combining local changes with remote tip " ++ tip ++
                  ": " ++ rustTrim out.stderr ++ " " ++ rustTrim out.stdout)
              else
                .error ("side-channel merge conflict while combining local changes with remote tip " ++
                  tip ++ ": " ++ joinCommaSpace conflicts)
          (res, trace)

/-- Embeds `git.rs::push_side_channel_commit`: push `<hash>:<destination_ref>`
to the side remote; a failing push whose combined stderr/stdout mentions
`non-fast-forward` or `[rejected]` is classified as `NonFastForward`,
any other failure is a hard error. -/
def push_side_channel_commit (env : GitEnv) (i : Nat)
    (side : SideChannelConfig) (destination_ref commit_hash : String) :
    TraceRes SideChannelPushResult :=
  let out := env.pushAt i
  let cmd : GitCmd :=
    ⟨["push", side.remote_name, commit_hash ++ ":" ++ destination_ref], []⟩
  let res : Except String SideChannelPushResult :=
    if out.exitOk then .ok .Pushed
    else
      let combined := out.stderr ++ "\n" ++ out.stdout
      if rustContains combined "non-fast-forward" ||
          rustContains combined "[rejected]" then
        .ok .NonFastForward
      else
        .error ("git push failed in " ++ env.repoDisplay ++ ": " ++
          rustTrim combined)
  (res, [cmd])

/-- Embeds `git.rs::fetch_side_channel`: re-check the remote, then
`git fetch <remote> <branch>`. -/
def fetch_side_channel (env : GitEnv) (side : SideChannelConfig) :
    TraceRes Unit :=
  let er := ensure_remote_exists env side.remote_name
  match er.1 with
  | .error e => (.error e, er.2)
  | .ok _ =>
    (match env.fetchBranchOut with
      | .ok _ => .ok ()
      | .error e => .error e,
     er.2 ++ [⟨["fetch", side.remote_name, side.branch_name], []⟩])

/-- The push destination computed in `side_channel_sync`: the branch
name verbatim when it begins with `refs/`, else under `refs/heads/`. -/
def destinationRef (branch_name : String) : String :=
  if rustStartsWith branch_name "refs/" then branch_name
  else "refs/heads/" ++ branch_name

/-- One iteration of the retry loop in `git.rs::side_channel_sync`:
look up the side tip, pick the parent (tip when present, else the
recorded HEAD), compute the tree, build the commit object, push it. -/
def side_channel_attempt (env : GitEnv) (i : Nat)
    (local_head local_tree remote_ref destination_ref message : String)
    (side : SideChannelConfig) : TraceRes SideChannelPushResult :=
  let tipCmd : GitCmd := ⟨["rev-parse", "--verify", "--quiet", remote_ref], []⟩
  let side_tip := env.sideTipAt i
  let parent := side_tip.getD local_head
  let m := merge_side_tip_into_snapshot env i local_head local_tree side_tip
  match m.1 with
  | .error e => (.error e, tipCmd :: m.2)
  | .ok tree =>
    let ct := commit_tree env tree (some parent) message
    match ct.1 with
    | .error e => (.error e, tipCmd :: m.2 ++ ct.2)
    | .ok commit_hash =>
      let pr := push_side_channel_commit env i side destination_ref commit_hash
      (pr.1, tipCmd :: m.2 ++ ct.2 ++ pr.2)

/-- Embeds `git.rs::side_channel_sync`.  All staging happens against a fresh
temporary index file (`idxPath`) injected via `GIT_INDEX_FILE`; the
`loop { ... }` with its `did_retry` flag runs at most two iterations, so
it is unrolled into two `side_channel_attempt`s with a
`fetch_side_channel` between them.  (The `NamedTempFile` allocation
itself, which can only fail before any git command runs, is not
modeled.) -/
def side_channel_sync (env : GitEnv) (idxPath : String)
    (side : SideChannelConfig) (include_untracked : Bool)
    (message : String) : TraceRes SideChannelSyncResult :=
  let er := ensure_remote_exists env side.remote_name
  match er.1 with
  | .error e => (.error e, er.2)
  | .ok _ =>
    let t0 := er.2
    let idxEnv : List (String × String) := [("GIT_INDEX_FILE", idxPath)]
    let rtCmd : GitCmd := ⟨["read-tree", "HEAD"], idxEnv⟩
    match env.readTreeHead with
    | .error e => (.error e, t0 ++ [rtCmd])
    | .ok _ =>
      let addCmd : GitCmd :=
        ⟨["add", if include_untracked then "-A" else "-u"], idxEnv⟩
      match (if include_untracked then env.stageAllOut else env.stageTrackedOut) with
      | .error e => (.error e, t0 ++ [rtCmd, addCmd])
      | .ok _ =>
        let hs := has_staged_changes_with_env env idxEnv
        match hs.1 with
        | .error e => (.error e, t0 ++ [rtCmd, addCmd] ++ hs.2)
        | .ok false => (.ok .NoChanges, t0 ++ [rtCmd, addCmd] ++ hs.2)
        | .ok true =>
          let wtCmd : GitCmd := ⟨["write-tree"], idxEnv⟩
          match env.writeTreeOut with
          | .error e => (.error e, t0 ++ [rtCmd, addCmd] ++ hs.2 ++ [wtCmd])
          | .ok wtOut =>
            let local_tree := rustTrim wtOut
            let rpCmd : GitCmd := ⟨["rev-parse", "HEAD"], []⟩
            match env.revParseHead with
            | .error e =>
                (.error e, t0 ++ [rtCmd, addCmd] ++ hs.2 ++ [wtCmd, rpCmd])
            | .ok rpOut =>
              let local_head := rustTrim rpOut
              let remote_ref := side.remote_name ++ "/" ++ side.branch_name
              let dest := destinationRef side.branch_name
              let pre := t0 ++ [rtCmd, addCmd] ++ hs.2 ++ [wtCmd, rpCmd]
              let a0 := side_channel_attempt env 0 local_head local_tree
                remote_ref dest message side
              match a0.1 with
              | .error e => (.error e, pre ++ a0.2)
              | .ok .Pushed => (.ok .Pushed, pre ++ a0.2)
              | .ok .NonFastForward =>
                let f := fetch_side_channel env side
                match f.1 with
                | .error e => (.error e, pre ++ a0.2 ++ f.2)
                | .ok _ =>
                  let a1 := side_channel_attempt env 1 local_head local_tree
                    remote_ref dest message side
                  match a1.1 with
                  | .error e => (.error e, pre ++ a0.2 ++ f.2 ++ a1.2)
                  | .ok .Pushed => (.ok .Pushed, pre ++ a0.2 ++ f.2 ++ a1.2)
                  | .ok .NonFastForward =>
                    (.error "side-channel push rejected after retry because branch advanced concurrently",
                     pre ++ a0.2 ++ f.2 ++ a1.2)

/-! ## `git.rs::generate_commit_message`

Rust's `str::replace` replaces the leftmost non-overlapping occurrences
of the pattern, scanning left to right.  We implement that scan with a
structural fuel argument (fuel = input length suffices, since every step
consumes at least one character) so that it evaluates in the kernel.
The empty-pattern case (which the program never uses: its three patterns
are literal placeholders) is mapped to the identity. -/

/-- Leftmost non-overlapping replacement scan; on a match the whole
pattern (one character now, `pat.length - 1` more from the tail) is
consumed. -/
def replaceGo : Nat → List Char → List Char → List Char → List Char
  | 0, s, _, _ => s
  | _ + 1, [], _, _ => []
  | fuel + 1, c :: rest, pat, rep =>
    if pat.isPrefixOf (c :: rest) then
      rep ++ replaceGo fuel (List.drop (pat.length - 1) rest) pat rep
    else
      c :: replaceGo fuel rest pat rep

/-- Rust's `str::replace` (for the nonempty patterns the program uses). -/
def rustReplace (s pat rep : String) : String :=
  if pat.data.isEmpty then s
  else ⟨replaceGo s.data.length s.data pat.data rep.data⟩

/-- Embeds `git.rs::generate_commit_message`, parameterized by the two values
the Rust function reads from the outside world: the formatted local
timestamp and the OS hostname (already defaulted to `""` when
unavailable).  The three substitutions are applied sequentially, each to
the result of the previous one. -/
def generate_commit_message_with (template ts hostName : String)
    (include_untracked : Bool) : String :=
  let scope := if include_untracked then "all" else "tracked"
  rustReplace
    (rustReplace (rustReplace template "\x7btimestamp\x7d" ts)
      "\x7bhostname\x7d" hostName)
    "\x7bscope\x7d" scope

/-- One-pass simultaneous literal substitution, written from the claim's
words for C9: scan the template left to right; wherever one of the
placeholder strings occurs, emit its value; every other character —
including any placeholder text inside the substituted values — is left
verbatim.  (Empty patterns are ignored; the placeholders are distinct
non-prefix literals, so the scan is unambiguous.) -/
def simultaneousSubstGo :
    Nat → List (List Char × List Char) → List Char → List Char
  | 0, _, s => s
  | _ + 1, _, [] => []
  | fuel + 1, subs, c :: rest =>
    match subs.find? (fun p => p.1.isPrefixOf (c :: rest)) with
    | some p => p.2 ++ simultaneousSubstGo fuel subs (List.drop (p.1.length - 1) rest)
    | none => c :: simultaneousSubstGo fuel subs rest

/-- Simultaneous substitution of several placeholder/value pairs. -/
def simultaneousSubstitute (subs : List (String × String)) (s : String) :
    String :=
  let pairs := (subs.map (fun p => (p.1.data, p.2.data))).filter
    (fun p => !p.1.isEmpty)
  ⟨simultaneousSubstGo s.data.length pairs s.data⟩

/-- The commit message the claim (C9) describes: the template with every
occurrence of the three placeholders simultaneously replaced by their
values, everything else (including unknown placeholders) left verbatim. -/
def claimCommitMessage (template ts hostName : String)
    (include_untracked : Bool) : String :=
  simultaneousSubstitute
    [("\x7btimestamp\x7d", ts), ("\x7bhostname\x7d", hostName),
     ("\x7bscope\x7d", if include_untracked then "all" else "tracked")]
    template

/-! ## `src/workflow.rs` -/

/-- From `workflow.rs`: `pub enum RepoStatus`. -/
inductive RepoStatus
  | Success
  | NoOp
  | Failed
deriving DecidableEq, Repr

/-- From `workflow.rs`: `pub struct RepoResult`. -/
structure RepoResult where
  repo : String
  status : RepoStatus
  message : String
deriving DecidableEq, Repr

/-- From `config.rs`: `pub enum FailurePolicy`. -/
inductive FailurePolicy
  | Continue
deriving DecidableEq, Repr

/-- From `config.rs`: `pub struct ResolvedRunConfig`. -/
structure ResolvedRunConfig where
  push_enabled : Bool
  include_untracked : Bool
  side_channel : SideChannelConfig
  commit_template : String
  failure_policy : FailurePolicy
deriving DecidableEq, Repr

/-- The high-level git operations `workflow.rs::run_repo` can invoke,
recorded in order. -/
inductive WfAction
  | pullFf
  | preflight
  | sideSync
  | stage
  | inspectDiff
  | commitHead
  | pushHead
deriving DecidableEq, Repr

/-- Oracle for the `crate::git` calls made by `workflow.rs::run_repo`. -/
structure WorkflowEnv where
  /-- Result of `git::pull_ff_only(repo)`. -/
  pullFfRes : Except String Unit
  /-- Result of `git::side_channel_preflight(repo, side)`. -/
  preflightRes : Except String Unit
  /-- Result of `git::side_channel_sync(repo, side, include_untracked, message)`. -/
  sideSyncRes : Except String SideChannelSyncResult
  /-- Result of `git::stage_changes(repo, include_untracked)`. -/
  stageRes : Except String Unit
  /-- Result of `git::has_staged_changes(repo)`. -/
  hasStagedRes : Except String Bool
  /-- Result of `git::commit(repo, message)`. -/
  commitRes : Except String Unit
  /-- Result of `git::push(repo)`. -/
  pushRes : Except String Unit

/-- Embeds `workflow.rs::run_repo`: fast-forward pull, then — only when
`push_enabled` — either the side-channel engine (when
`side_channel.enabled`, after its preflight) or the straight
stage/commit/push path.  Returns the `RepoResult` and the ordered list
of git operations invoked.  The commit message the Rust code formats
with `generate_commit_message` is handed to the sync/commit operations;
their oracle outcomes absorb it here. -/
def run_repo (env : WorkflowEnv) (repo : String) (cfg : ResolvedRunConfig) :
    RepoResult × List WfAction :=
  match env.pullFfRes with
  | .error e =>
      (⟨repo, .Failed, "pull failed: " ++ e⟩, [.pullFf])
  | .ok _ =>
    if !cfg.push_enabled then
      (⟨repo, .Success, "pull ok"⟩, [.pullFf])
    else if cfg.side_channel.enabled then
      match env.preflightRes with
      | .error e =>
          (⟨repo, .Failed, "side-channel setup failed: " ++ e⟩,
           [.pullFf, .preflight])
      | .ok _ =>
        match env.sideSyncRes with
        | .ok .Pushed =>
            (⟨repo, .Success, "pull ok, side-channel commit pushed"⟩,
             [.pullFf, .preflight, .sideSync])
        | .ok .NoChanges =>
            (⟨repo, .NoOp, "pull ok, no local changes to commit"⟩,
             [.pullFf, .preflight, .sideSync])
        | .error e =>
            (⟨repo, .Failed, "side-channel sync failed: " ++ e⟩,
             [.pullFf, .preflight, .sideSync])
    else
      match env.stageRes with
      | .error e =>
          (⟨repo, .Failed, "stage failed: " ++ e⟩, [.pullFf, .stage])
      | .ok _ =>
        match env.hasStagedRes with
        | .error e =>
            (⟨repo, .Failed, "failed to inspect staged diff: " ++ e⟩,
             [.pullFf, .stage, .inspectDiff])
        | .ok has_changes =>
          if has_changes then
            match env.commitRes with
            | .error e =>
                (⟨repo, .Failed, "commit failed: " ++ e⟩,
                 [.pullFf, .stage, .inspectDiff, .commitHead])
            | .ok _ =>
              match env.pushRes with
              | .error e =>
                  (⟨repo, .Failed, "push failed: " ++ e⟩,
                   [.pullFf, .stage, .inspectDiff, .commitHead, .pushHead])
              | .ok _ =>
                  (⟨repo, .Success, "pull ok, committed, pushed"⟩,
                   [.pullFf, .stage, .inspectDiff, .commitHead, .pushHead])
          else
            match env.pushRes with
            | .error e =>
                (⟨repo, .Failed, "push failed: " ++ e⟩,
                 [.pullFf, .stage, .inspectDiff, .pushHead])
            | .ok _ =>
                (⟨repo, .NoOp, "pull ok, no local changes to commit"⟩,
                 [.pullFf, .stage, .inspectDiff, .pushHead])

/-! ## `src/config.rs::validate` -/

/-- From `config.rs`: `pub struct ResolvedRepositorySideChannelConfig`. -/
structure ResolvedRepositorySideChannelConfig where
  enabled : Option Bool
  remote_name : Option String
  branch_name : Option String
deriving DecidableEq, Repr

/-- From `config.rs`: `pub struct ResolvedRepositoryConfig` (paths modeled as
strings). -/
structure ResolvedRepositoryConfig where
  path : String
  enabled : Bool
  include_untracked : Option Bool
  side_channel : ResolvedRepositorySideChannelConfig
deriving DecidableEq, Repr

/-- From `config.rs`: `pub enum RunMode`. -/
inductive RunMode
  | SyncAll
  | PullOnly
deriving DecidableEq, Repr

/-- From `config.rs`: `pub struct ResolvedConfig`. -/
structure ResolvedConfig where
  default_mode : RunMode
  push_enabled : Bool
  include_untracked : Bool
  side_channel : SideChannelConfig
  commit_template : String
  failure_policy : FailurePolicy
  repositories : List ResolvedRepositoryConfig
deriving DecidableEq, Repr

/-- Is `s.trim()` empty? -/
def trimIsEmpty (s : String) : Bool :=
  (trimL s.data).isEmpty

/-- The per-repository half of `config.rs::validate`: for each entry in
order, reject empty paths, duplicate canonical keys, and per-repo
side-channel overrides that are whitespace-only.  `canon` abstracts
`canonical_repo_key` (which consults the filesystem). -/
def validateRepos (canon : String → String) :
    Nat → List String → List ResolvedRepositoryConfig → Except String Unit
  | _, _, [] => .ok ()
  | idx, seen, repo :: rest =>
    if repo.path.isEmpty then
      .error ("repositories[" ++ toString idx ++ "].path cannot be empty")
    else
      let key := canon repo.path
      if seen.contains key then
        .error ("repositories[" ++ toString idx ++
          "] duplicates repository path " ++ repo.path)
      else if (match repo.side_channel.remote_name with
               | some r => trimIsEmpty r
               | none => false) then
        .error ("repositories[" ++ toString idx ++
          "].side_channel.remote_name cannot be empty")
      else if (match repo.side_channel.branch_name with
               | some b => trimIsEmpty b
               | none => false) then
        .error ("repositories[" ++ toString idx ++
          "].side_channel.branch_name cannot be empty")
      else validateRepos canon (idx + 1) (key :: seen) rest

/-- Embeds `config.rs::validate`: reject whitespace-only `remote_name`,
`branch_name` and `commit_template`, then validate the repository
entries. -/
def validate (canon : String → String) (cfg : ResolvedConfig) :
    Except String Unit :=
  if trimIsEmpty cfg.side_channel.remote_name then
    .error "side_channel.remote_name cannot be empty"
  else if trimIsEmpty cfg.side_channel.branch_name then
    .error "side_channel.branch_name cannot be empty"
  else if trimIsEmpty cfg.commit_template then
    .error "commit.message_template cannot be empty"
  else validateRepos canon 0 [] cfg.repositories

deriving instance DecidableEq for Except

/-! ## Concrete environments used by witnesses -/

/-- A repository whose snapshot differs from HEAD, whose side branch
does not exist yet, and whose push succeeds: every oracle call the
engine can make succeeds.  Commit ids are content-addressed from tree,
parent and message. -/
def envFreshBranch : GitEnv where
  repoDisplay := "/repo"
  remoteGetUrl := .ok "url\n"
  readTreeHead := .ok ""
  stageAllOut := .ok ""
  stageTrackedOut := .ok ""
  diffCachedExit := some true
  writeTreeOut := .ok "t-local\n"
  revParseHead := .ok "h-local\n"
  sideTipAt := fun _ => none
  isAncestorAt := fun _ _ _ => .ok false
  mergeBaseAt := fun _ _ _ => .ok "base\n"
  commitTreeFn := fun t p m =>
    .ok ("c<" ++ t ++ "|" ++ p.getD "-" ++ "|" ++ m ++ ">\n")
  mergeTreeAt := fun _ _ _ _ => ⟨true, "t-merged\n", ""⟩
  pushAt := fun _ => ⟨true, "", ""⟩
  fetchBranchOut := .ok ""

/-- The side-channel configuration the repository's tests use. -/
def sideCfg : SideChannelConfig :=
  ⟨true, "shephard", "shephard/sync"⟩

example :
    (side_channel_sync envFreshBranch "/tmp/idx0" sideCfg false "m").1 =
      .ok .Pushed := by decide

example :
    (side_channel_sync envFreshBranch "/tmp/idx0" sideCfg false "m").2.getLast? =
      some ⟨["push", "shephard",
        "c<t-local|h-local|m>:refs/heads/shephard/sync"], []⟩ := by decide

example :
    (side_channel_sync { envFreshBranch with diffCachedExit := some false }
      "/tmp/idx0" sideCfg false "m").1 = .ok .NoChanges := by decide

example :
    generate_commit_message_with
      "shephard sync: \x7btimestamp\x7d \x7bhostname\x7d [\x7bscope\x7d]"
      "2026-10-12 10:00:00 +0000" "box" true =
      "shephard sync: 2026-10-12 10:00:00 +0000 box [all]" := by decide

/-! ## Command classification -/

/-- The git subcommand of an issued command. -/
def cmdName (c : GitCmd) : String :=
  c.args.headD ""

/-- Git subcommands that move the HEAD reference of the working copy
(directly or by creating a commit on the current branch). -/
def headMovingName (n : String) : Bool :=
  ["commit", "merge", "pull", "rebase", "reset", "checkout", "switch",
   "cherry-pick", "revert", "am", "update-ref", "symbolic-ref"].contains n

/-- Git subcommands that write to the index file they operate on. -/
def indexWritingName (n : String) : Bool :=
  ["read-tree", "add", "rm", "mv", "restore", "checkout", "reset",
   "stash", "apply"].contains n

/-- The engine's staging pipeline: every subcommand that reads or writes
an index file. -/
def stagingName (n : String) : Bool :=
  ["read-tree", "add", "diff", "write-tree"].contains n

/-- A command is frame-safe for the working copy: it does not move HEAD,
and if it writes (or even reads) an index it is redirected to the
snapshot index via `GIT_INDEX_FILE`. -/
def EngineSafe (idxPath : String) (c : GitCmd) : Prop :=
  headMovingName (cmdName c) = false ∧
  (indexWritingName (cmdName c) = true →
    c.env = [("GIT_INDEX_FILE", idxPath)]) ∧
  (stagingName (cmdName c) = true →
    c.env = [("GIT_INDEX_FILE", idxPath)])

instance (idxPath : String) (c : GitCmd) : Decidable (EngineSafe idxPath c) := by
  unfold EngineSafe; infer_instance

/-- Boolean form of `EngineSafe`. -/
def engineSafeB (idxPath : String) (c : GitCmd) : Bool :=
  !headMovingName (cmdName c) &&
  (!indexWritingName (cmdName c) ||
    decide (c.env = [("GIT_INDEX_FILE", idxPath)])) &&
  (!stagingName (cmdName c) ||
    decide (c.env = [("GIT_INDEX_FILE", idxPath)]))

theorem engineSafe_iff (idxPath : String) (c : GitCmd) :
    EngineSafe idxPath c ↔ engineSafeB idxPath c = true := by
  unfold EngineSafe engineSafeB
  cases h1 : headMovingName (cmdName c) <;>
  cases h2 : indexWritingName (cmdName c) <;>
  cases h3 : stagingName (cmdName c) <;>
    simp [h1, h2, h3]

/-- How `push_side_channel_commit` classifies the raw push outcome. -/
def pushClass (repoDisp : String) (p : PushOut) :
    Except String SideChannelPushResult :=
  if p.exitOk then .ok .Pushed
  else
    let combined := p.stderr ++ "\n" ++ p.stdout
    if rustContains combined "non-fast-forward" ||
        rustContains combined "[rejected]" then
      .ok .NonFastForward
    else
      .error ("git push failed in " ++ repoDisp ++ ": " ++ rustTrim combined)

/-- Occurrences of a given subcommand in a trace. -/
def cmdCount (t : List GitCmd) (n : String) : Nat :=
  (t.filter (fun c => cmdName c = n)).length

/-- Occurrences of the side-tip lookup (`rev-parse --verify …`) in a
trace. -/
def tipLookupCount (t : List GitCmd) : Nat :=
  (t.filter (fun c => c.args.take 2 = ["rev-parse", "--verify"])).length

/-! ## Trace lemmas -/

theorem push_side_channel_commit_eq (env : GitEnv) (i : Nat)
    (side : SideChannelConfig) (d h : String) :
    push_side_channel_commit env i side d h =
      (pushClass env.repoDisplay (env.pushAt i),
       [⟨["push", side.remote_name, h ++ ":" ++ d], []⟩]) := by
  rfl

theorem commit_tree_trace (env : GitEnv) (t : String) (p : Option String)
    (m : String) :
    (commit_tree env t p m).2 =
      [⟨["commit-tree", t, "-m", m] ++
        (match p with
          | some q => ["-p", q]
          | none => []), []⟩] := rfl

theorem ensure_remote_trace_all (env : GitEnv) (r idx : String) :
    (ensure_remote_exists env r).2.all (engineSafeB idx) = true := by
  simp [ensure_remote_exists, engineSafeB, cmdName, headMovingName,
    indexWritingName, stagingName]

theorem merge_trace_all (env : GitEnv) (idx : String) (i : Nat)
    (lh lt : String) (s : Option String) :
    (merge_side_tip_into_snapshot env i lh lt s).2.all (engineSafeB idx) =
      true := by
  cases s with
  | none => rfl
  | some tip =>
    cases ha : env.isAncestorAt i tip lh with
    | error e =>
        simp [merge_side_tip_into_snapshot, ha, engineSafeB, cmdName,
          headMovingName, indexWritingName, stagingName]
    | ok b =>
      cases b with
      | true =>
          simp [merge_side_tip_into_snapshot, ha, engineSafeB, cmdName,
            headMovingName, indexWritingName, stagingName]
      | false =>
        cases hb : env.mergeBaseAt i lh tip with
        | error e =>
            simp [merge_side_tip_into_snapshot, ha, hb, engineSafeB, cmdName,
              headMovingName, indexWritingName, stagingName]
        | ok mb =>
          simp only [merge_side_tip_into_snapshot, ha, hb, commit_tree_trace]
          split <;>
            simp [engineSafeB, cmdName, headMovingName, indexWritingName,
              stagingName]

theorem attempt_trace_all (env : GitEnv) (idx : String) (i : Nat)
    (lh lt rref dest msg : String) (side : SideChannelConfig) :
    (side_channel_attempt env i lh lt rref dest msg side).2.all
      (engineSafeB idx) = true := by
  simp only [side_channel_attempt, push_side_channel_commit_eq,
    commit_tree_trace]
  repeat' split
  all_goals
    simp [List.all_append, merge_trace_all, engineSafeB, cmdName,
      headMovingName, indexWritingName, stagingName]

theorem fetch_trace_all (env : GitEnv) (idx : String)
    (side : SideChannelConfig) :
    (fetch_side_channel env side).2.all (engineSafeB idx) = true := by
  simp only [fetch_side_channel]
  repeat' split
  all_goals
    simp [List.all_append, ensure_remote_trace_all, engineSafeB, cmdName,
      headMovingName, indexWritingName, stagingName]

theorem sync_trace_all (env : GitEnv) (idx : String)
    (side : SideChannelConfig) (iu : Bool) (msg : String) :
    (side_channel_sync env idx side iu msg).2.all (engineSafeB idx) =
      true := by
  have hadd : engineSafeB idx
      ⟨["add", if iu then "-A" else "-u"], [("GIT_INDEX_FILE", idx)]⟩ =
        true := by
    cases iu <;>
      simp [engineSafeB, cmdName, headMovingName, indexWritingName,
        stagingName]
  simp only [side_channel_sync, has_staged_changes_with_env]
  repeat' split
  all_goals
    simp [List.all_append, ensure_remote_trace_all, hadd, attempt_trace_all,
      fetch_trace_all, engineSafeB, cmdName, headMovingName,
      indexWritingName, stagingName]

/-- Every command issued by `merge_side_tip_into_snapshot` is the
ancestry check, the merge-base query, the throwaway snapshot commit, or
the write-tree merge. -/
theorem merge_cmd_forms (env : GitEnv) (i : Nat) (lh lt : String)
    (s : Option String) :
    ∀ c ∈ (merge_side_tip_into_snapshot env i lh lt s).2,
      (∃ tip, s = some tip ∧
        c = ⟨["merge-base", "--is-ancestor", tip, lh], []⟩) ∨
      (∃ tip, s = some tip ∧ c = ⟨["merge-base", lh, tip], []⟩) ∨
      c = ⟨["commit-tree", lt, "-m", "shephard side-channel local snapshot",
            "-p", lh], []⟩ ∨
      (∃ tip b lc, s = some tip ∧
        c = ⟨["merge-tree", "--write-tree", "--merge-base", b, lc, tip],
             []⟩) := by
  intro c hc
  cases s with
  | none => simp [merge_side_tip_into_snapshot] at hc
  | some tip =>
    cases ha : env.isAncestorAt i tip lh with
    | error e =>
      simp [merge_side_tip_into_snapshot, ha] at hc
      exact Or.inl ⟨tip, rfl, hc⟩
    | ok b =>
      cases b with
      | true =>
        simp [merge_side_tip_into_snapshot, ha] at hc
        exact Or.inl ⟨tip, rfl, hc⟩
      | false =>
        cases hb : env.mergeBaseAt i lh tip with
        | error e =>
          simp [merge_side_tip_into_snapshot, ha, hb] at hc
          rcases hc with rfl | rfl
          · exact Or.inl ⟨tip, rfl, rfl⟩
          · exact Or.inr (Or.inl ⟨tip, rfl, rfl⟩)
        | ok mb =>
          simp only [merge_side_tip_into_snapshot, ha, hb,
            commit_tree_trace] at hc
          split at hc
          · simp at hc
            rcases hc with rfl | rfl | rfl
            · exact Or.inl ⟨tip, rfl, rfl⟩
            · exact Or.inr (Or.inl ⟨tip, rfl, rfl⟩)
            · exact Or.inr (Or.inr (Or.inl rfl))
          · simp at hc
            rcases hc with rfl | rfl | rfl | rfl
            · exact Or.inl ⟨tip, rfl, rfl⟩
            · exact Or.inr (Or.inl ⟨tip, rfl, rfl⟩)
            · exact Or.inr (Or.inr (Or.inl rfl))
            · exact Or.inr (Or.inr (Or.inr ⟨tip, _, _, rfl, rfl⟩))

/-- The merge step issues no push, no fetch, and no side-tip lookup. -/
theorem merge_not_counted (env : GitEnv) (i : Nat) (lh lt : String)
    (s : Option String) :
    ∀ c ∈ (merge_side_tip_into_snapshot env i lh lt s).2,
      cmdName c ≠ "push" ∧ cmdName c ≠ "fetch" ∧
        c.args.take 2 ≠ ["rev-parse", "--verify"] := by
  intro c hc
  rcases merge_cmd_forms env i lh lt s c hc with
    ⟨tip, _, rfl⟩ | ⟨tip, _, rfl⟩ | rfl | ⟨tip, b, lc, _, rfl⟩ <;>
    simp [cmdName]

/-- Every command issued by one retry-loop iteration is the side-tip
lookup, a merge-step command, the commit-object build (whose parent is
the looked-up tip, or the recorded HEAD when the tip is absent), or the
push of `hash:destination_ref`. -/
theorem attempt_cmd_forms (env : GitEnv) (i : Nat)
    (lh lt rref dest msg : String) (side : SideChannelConfig) :
    ∀ c ∈ (side_channel_attempt env i lh lt rref dest msg side).2,
      c = ⟨["rev-parse", "--verify", "--quiet", rref], []⟩ ∨
      c ∈ (merge_side_tip_into_snapshot env i lh lt (env.sideTipAt i)).2 ∨
      (∃ t, c = ⟨["commit-tree", t, "-m", msg, "-p",
        (env.sideTipAt i).getD lh], []⟩) ∨
      (∃ hsh, c = ⟨["push", side.remote_name, hsh ++ ":" ++ dest], []⟩) := by
  intro c hc
  simp only [side_channel_attempt, push_side_channel_commit_eq,
    commit_tree_trace] at hc
  split at hc
  · simp at hc
    rcases hc with rfl | h
    · exact Or.inl rfl
    · exact Or.inr (Or.inl h)
  · split at hc
    · simp at hc
      rcases hc with rfl | h | rfl
      · exact Or.inl rfl
      · exact Or.inr (Or.inl h)
      · exact Or.inr (Or.inr (Or.inl ⟨_, rfl⟩))
    · simp at hc
      rcases hc with rfl | h | rfl | rfl
      · exact Or.inl rfl
      · exact Or.inr (Or.inl h)
      · exact Or.inr (Or.inr (Or.inl ⟨_, rfl⟩))
      · exact Or.inr (Or.inr (Or.inr ⟨_, rfl⟩))

/-- Pushes inside one attempt always target `hash:destination_ref` on
the configured remote. -/
theorem attempt_push_shape (env : GitEnv) (i : Nat)
    (lh lt rref dest msg : String) (side : SideChannelConfig) :
    ∀ c ∈ (side_channel_attempt env i lh lt rref dest msg side).2,
      cmdName c = "push" →
      ∃ hsh, c.args = ["push", side.remote_name, hsh ++ ":" ++ dest] := by
  intro c hc hname
  rcases attempt_cmd_forms env i lh lt rref dest msg side c hc with
    rfl | h | ⟨t, rfl⟩ | ⟨hsh, rfl⟩
  · simp [cmdName] at hname
  · exact absurd hname (merge_not_counted env i lh lt _ c h).1
  · simp [cmdName] at hname
  · exact ⟨hsh, rfl⟩

/-- The mid-loop re-fetch issues no push. -/
theorem fetch_not_push (env : GitEnv) (side : SideChannelConfig) :
    ∀ c ∈ (fetch_side_channel env side).2, cmdName c ≠ "push" := by
  intro c hc
  simp only [fetch_side_channel, ensure_remote_exists] at hc
  split at hc <;> simp at hc
  · simp [hc, cmdName]
  · rcases hc with rfl | rfl <;> simp [cmdName]

/-- C2: for every side-channel sync run that returns `Pushed` or
`NoChanges`, the repository's HEAD reference and its primary index are
untouched: no command in the engine's trace is HEAD-moving, and every
command that reads or writes an index carries the `GIT_INDEX_FILE`
override pointing at the freshly allocated temporary index. -/
theorem sync_preserves_head_and_primary_index (env : GitEnv)
    (idxPath : String) (side : SideChannelConfig) (iu : Bool) (msg : String)
    (_hres : (side_channel_sync env idxPath side iu msg).1 = .ok .Pushed ∨
      (side_channel_sync env idxPath side iu msg).1 = .ok .NoChanges) :
    ∀ c ∈ (side_channel_sync env idxPath side iu msg).2,
      EngineSafe idxPath c := by
  intro c hc
  rw [engineSafe_iff]
  exact List.all_eq_true.mp (sync_trace_all env idxPath side iu msg) c hc

/-- Witness for C2: the concrete successful run pushes, and its staging
command targets the temporary index and moves nothing. -/
theorem sync_preserves_head_and_primary_index_witness :
    EngineSafe "/tmp/idx0"
      ⟨["read-tree", "HEAD"], [("GIT_INDEX_FILE", "/tmp/idx0")]⟩ :=
  sync_preserves_head_and_primary_index envFreshBranch "/tmp/idx0" sideCfg
    false "m" (Or.inl (by decide))
    ⟨["read-tree", "HEAD"], [("GIT_INDEX_FILE", "/tmp/idx0")]⟩ (by decide)

/-- C5: when the working tree staged over HEAD's tree equals HEAD's
tree (no staged diff in the snapshot index), the sync returns
`NoChanges` before computing any tree, building any commit, or pushing
anything — so the remote side branch is untouched. -/
theorem sync_clean_tree_no_changes (env : GitEnv) (idxPath : String)
    (side : SideChannelConfig) (iu : Bool) (msg : String) (u rt ad : String)
    (h1 : env.remoteGetUrl = .ok u)
    (h2 : env.readTreeHead = .ok rt)
    (h3 : (if iu then env.stageAllOut else env.stageTrackedOut) = .ok ad)
    (h4 : env.diffCachedExit = some false) :
    (side_channel_sync env idxPath side iu msg).1 = .ok .NoChanges ∧
    ∀ c ∈ (side_channel_sync env idxPath side iu msg).2,
      cmdName c ≠ "write-tree" ∧ cmdName c ≠ "commit-tree" ∧
        cmdName c ≠ "push" := by
  have htrace : side_channel_sync env idxPath side iu msg =
      (.ok .NoChanges,
       [⟨["remote", "get-url", side.remote_name], []⟩,
        ⟨["read-tree", "HEAD"], [("GIT_INDEX_FILE", idxPath)]⟩,
        ⟨["add", if iu then "-A" else "-u"], [("GIT_INDEX_FILE", idxPath)]⟩,
        ⟨["diff", "--cached", "--quiet"], [("GIT_INDEX_FILE", idxPath)]⟩]) := by
    simp [side_channel_sync, ensure_remote_exists,
      has_staged_changes_with_env, h1, h2, h3, h4]
  rw [htrace]
  refine ⟨rfl, ?_⟩
  intro c hc
  simp at hc
  rcases hc with rfl | rfl | rfl | rfl <;> simp [cmdName]

/-- Witness for C5: a concrete clean repository yields `NoChanges`. -/
theorem sync_clean_tree_no_changes_witness :
    (side_channel_sync { envFreshBranch with diffCachedExit := some false }
      "/tmp/idx0" sideCfg false "m").1 = .ok .NoChanges :=
  (sync_clean_tree_no_changes
    { envFreshBranch with diffCachedExit := some false } "/tmp/idx0" sideCfg
    false "m" "url\n" "" "" rfl rfl rfl rfl).1

/-- C6: the push destination ref is the configured branch name used
verbatim when it begins with `refs/`, and `refs/heads/<branch_name>`
otherwise; every push the engine issues targets exactly
`<hash>:<destination_ref>` on the configured remote. -/
theorem side_channel_push_destination (env : GitEnv) (idxPath : String)
    (side : SideChannelConfig) (iu : Bool) (msg : String) :
    destinationRef side.branch_name =
      (if rustStartsWith side.branch_name "refs/" then side.branch_name
       else "refs/heads/" ++ side.branch_name) ∧
    ∀ c ∈ (side_channel_sync env idxPath side iu msg).2,
      cmdName c = "push" →
      ∃ hsh, c.args = ["push", side.remote_name,
        hsh ++ ":" ++ destinationRef side.branch_name] := by
  refine ⟨rfl, ?_⟩
  intro c hc hname
  simp only [side_channel_sync, ensure_remote_exists,
    has_staged_changes_with_env] at hc
  repeat' split at hc
  all_goals
    simp only [List.mem_cons, List.mem_append, List.mem_singleton,
      List.not_mem_nil, or_false, or_assoc] at hc
  all_goals
    repeat'
      (first
        | (rcases hc with rfl | hc)
        | (rcases hc with hc | hc))
  all_goals
    first
    | exact attempt_push_shape env 0 _ _ _ _ msg side c hc hname
    | exact attempt_push_shape env 1 _ _ _ _ msg side c hc hname
    | exact absurd hname (fetch_not_push env side c hc)
    | simp [cmdName] at hname

/-- Witness for C6: the concrete run's push targets
`refs/heads/shephard/sync` (the configured branch name does not begin
with `refs/`). -/
theorem side_channel_push_destination_witness :
    ∃ hsh,
      (GitCmd.mk ["push", "shephard",
        "c<t-local|h-local|m>:refs/heads/shephard/sync"] []).args =
      ["push", "shephard", hsh ++ ":" ++ destinationRef "shephard/sync"] :=
  (side_channel_push_destination envFreshBranch "/tmp/idx0" sideCfg false
      "m").2
    ⟨["push", "shephard", "c<t-local|h-local|m>:refs/heads/shephard/sync"],
      []⟩
    (by decide) (by decide)

/-! ## Sortedness of the conflict-path list -/

theorem ltCharsL_trichotomy :
    ∀ a b : List Char, ltCharsL a b = true ∨ a = b ∨ ltCharsL b a = true := by
  intro a
  induction a with
  | nil =>
    intro b
    cases b with
    | nil => exact Or.inr (Or.inl rfl)
    | cons y ys => exact Or.inl rfl
  | cons x xs ih =>
    intro b
    cases b with
    | nil => exact Or.inr (Or.inr rfl)
    | cons y ys =>
      rcases lt_trichotomy x y with hxy | hxy | hxy
      · exact Or.inl (by simp [ltCharsL, hxy])
      · subst hxy
        have hred : ∀ zs ws, ltCharsL (x :: zs) (x :: ws) = ltCharsL zs ws := by
          intro zs ws
          simp [ltCharsL, lt_irrefl]
        rcases ih ys with h | h | h
        · exact Or.inl (by rw [hred]; exact h)
        · exact Or.inr (Or.inl (by rw [h]))
        · exact Or.inr (Or.inr (by rw [hred]; exact h))
      · refine Or.inr (Or.inr ?_)
        simp [ltCharsL, hxy, asymm hxy]

theorem strLt_trichotomy (s t : String) :
    strLt s t = true ∨ s = t ∨ strLt t s = true := by
  rcases ltCharsL_trichotomy s.data t.data with h | h | h
  · exact Or.inl h
  · refine Or.inr (Or.inl ?_)
    cases s; cases t
    exact congrArg String.mk h
  · exact Or.inr (Or.inr h)

/-- Inserting into a `strLt`-sorted list keeps it sorted, and the new
head is the inserted element or the old head. -/
theorem insertSortedStr_chain' (s : String) :
    ∀ l, List.Chain' (fun a b => strLt a b = true) l →
      List.Chain' (fun a b => strLt a b = true) (insertSortedStr s l) ∧
      ∀ h, (insertSortedStr s l).head? = some h → h = s ∨ l.head? = some h := by
  intro l
  induction l with
  | nil =>
    intro _
    refine ⟨List.chain'_singleton s, ?_⟩
    intro h hh
    simp [insertSortedStr] at hh
    exact Or.inl hh.symm
  | cons x xs ih =>
    intro hch
    have hx : ∀ y ∈ xs.head?, strLt x y = true := (List.chain'_cons'.mp hch).1
    have hxs : List.Chain' (fun a b => strLt a b = true) xs :=
      (List.chain'_cons'.mp hch).2
    by_cases h1 : strLt s x = true
    · refine ⟨?_, ?_⟩
      · simp only [insertSortedStr, if_pos h1]
        refine List.chain'_cons'.mpr ⟨?_, hch⟩
        intro y hy
        simp at hy
        subst hy
        exact h1
      · intro h hh
        simp only [insertSortedStr, if_pos h1, List.head?_cons,
          Option.some.injEq] at hh
        exact Or.inl hh.symm
    · by_cases h2 : s = x
      · refine ⟨?_, ?_⟩
        · simpa only [insertSortedStr, if_neg h1, if_pos h2] using hch
        · intro h hh
          simp only [insertSortedStr, if_neg h1, if_pos h2] at hh
          exact Or.inr hh
      · have h3 : strLt x s = true := by
          rcases strLt_trichotomy s x with h | h | h
          · exact absurd h h1
          · exact absurd h h2
          · exact h
        obtain ⟨ih1, ih2⟩ := ih hxs
        refine ⟨?_, ?_⟩
        · simp only [insertSortedStr, if_neg h1, if_neg h2]
          refine List.chain'_cons'.mpr ⟨?_, ih1⟩
          intro y hy
          rcases ih2 y hy with rfl | hy'
          · exact h3
          · exact hx y hy'
        · intro h hh
          simp only [insertSortedStr, if_neg h1, if_neg h2, List.head?_cons,
            Option.some.injEq] at hh
          exact Or.inr (by simp [hh])

/-- The conflict-path list produced by the merge-tree output parser is
strictly sorted (hence also duplicate-free). -/
theorem conflict_paths_sorted (out : String) :
    List.Chain' (fun a b => strLt a b = true)
      (conflict_paths_from_merge_tree_output out) := by
  unfold conflict_paths_from_merge_tree_output
  generalize rustLines out = ls
  have main : ∀ (ls : List String) (acc : List String),
      List.Chain' (fun a b => strLt a b = true) acc →
      List.Chain' (fun a b => strLt a b = true)
        (ls.foldl
          (fun acc line =>
            match splitOnceTab line with
            | some p => insertSortedStr p.2 acc
            | none => acc)
          acc) := by
    intro ls
    induction ls with
    | nil => intro acc h; exact h
    | cons line rest ih =>
      intro acc h
      simp only [List.foldl_cons]
      cases splitOnceTab line with
      | none => exact ih acc h
      | some p => exact ih _ (insertSortedStr_chain' p.2 acc h).1
  exact main ls [] List.chain'_nil

/-- C1: the tree of the commit a side-channel sync publishes.  When the
remote side tip `S` is absent the snapshot tree `T_local` is used; when
`S` is an ancestor of the recorded local HEAD `H_local` the snapshot
tree is used; otherwise the engine builds a throwaway commit with tree
`T_local` and parent `H_local` and asks the VCS for the write-tree merge
of that commit with `S` over `merge-base(H_local, S)`.  A failing merge
whose output names conflicting paths (tab-separated) makes the sync fail
with the `side-channel merge conflict` error whose message joins the
conflicting paths, sorted and deduplicated, with `", "`; the final
conjunct shows the parsed conflict list is always sorted. -/
theorem merge_side_tip_spec (env : GitEnv) (i : Nat) (lh lt : String)
    (s : Option String) :
    ((merge_side_tip_into_snapshot env i lh lt s).1 =
      match s with
      | none => .ok lt
      | some tip =>
        match env.isAncestorAt i tip lh with
        | .error e => .error e
        | .ok true => .ok lt
        | .ok false =>
          match env.mergeBaseAt i lh tip with
          | .error e => .error e
          | .ok mbOut =>
            match env.commitTreeFn lt (some lh)
                "shephard side-channel local snapshot" with
            | .error e =>
                .error ("git commit-tree failed in " ++ env.repoDisplay ++
                  ": " ++ rustTrim e)
            | .ok ctOut =>
              let out := env.mergeTreeAt i (rustTrim mbOut) (rustTrim ctOut)
                tip
              if out.exitOk then
                match rustLines out.stdout with
                | [] =>
                    .error ("git merge-tree returned no tree for remote tip " ++
                      tip ++ " in " ++ env.repoDisplay)
                | l :: _ =>
                  if rustTrim l = "" then
                    .error ("git merge-tree returned no tree for remote tip " ++
                      tip ++ " in " ++ env.repoDisplay)
                  else .ok (rustTrim l)
              else
                if (conflict_paths_from_merge_tree_output out.stdout).isEmpty
                  then
                  .error ("git merge-tree failed in " ++ env.repoDisplay ++
                    " while combining local changes with remote tip " ++
                    tip ++ ": " ++ rustTrim out.stderr ++ " " ++
                    rustTrim out.stdout)
                else
                  .error ("side-channel merge conflict while combining local changes with remote tip " ++
                    tip ++ ": " ++
                    String.intercalate ", "
                      (conflict_paths_from_merge_tree_output out.stdout))) ∧
    ∀ out : String,
      List.Chain' (fun a b => strLt a b = true)
        (conflict_paths_from_merge_tree_output out) := by
  refine ⟨?_, conflict_paths_sorted⟩
  cases s with
  | none => rfl
  | some tip =>
    cases ha : env.isAncestorAt i tip lh with
    | error e => simp [merge_side_tip_into_snapshot, ha]
    | ok b =>
      cases b with
      | true => simp [merge_side_tip_into_snapshot, ha]
      | false =>
        cases hb : env.mergeBaseAt i lh tip with
        | error e => simp [merge_side_tip_into_snapshot, ha, hb]
        | ok mb =>
          cases hct : env.commitTreeFn lt (some lh)
              "shephard side-channel local snapshot" with
          | error e =>
              simp [merge_side_tip_into_snapshot, commit_tree, ha, hb, hct]
          | ok ctOut =>
              simp [merge_side_tip_into_snapshot, commit_tree, ha, hb, hct,
                joinCommaSpace]

/-! ## Exact traces of a successful attempt -/

theorem merge_filter_push (env : GitEnv) (i : Nat) (lh lt : String)
    (s : Option String) :
    (merge_side_tip_into_snapshot env i lh lt s).2.filter
      (fun c => cmdName c = "push") = [] := by
  rw [List.filter_eq_nil_iff]
  intro c hc
  simpa using (merge_not_counted env i lh lt s c hc).1

theorem merge_filter_fetch (env : GitEnv) (i : Nat) (lh lt : String)
    (s : Option String) :
    (merge_side_tip_into_snapshot env i lh lt s).2.filter
      (fun c => cmdName c = "fetch") = [] := by
  rw [List.filter_eq_nil_iff]
  intro c hc
  simpa using (merge_not_counted env i lh lt s c hc).2.1

theorem merge_filter_tip_lookup (env : GitEnv) (i : Nat) (lh lt : String)
    (s : Option String) :
    (merge_side_tip_into_snapshot env i lh lt s).2.filter
      (fun c => c.args.take 2 = ["rev-parse", "--verify"]) = [] := by
  rw [List.filter_eq_nil_iff]
  intro c hc
  simpa using (merge_not_counted env i lh lt s c hc).2.2

/-- Behavior of `fetch_side_channel` when the remote exists: the exact commands. -/
theorem fetch_staged (env : GitEnv) (side : SideChannelConfig) (u : String)
    (h : env.remoteGetUrl = .ok u) :
    fetch_side_channel env side =
      ((match env.fetchBranchOut with
        | .ok _ => .ok ()
        | .error e => .error e),
       [⟨["remote", "get-url", side.remote_name], []⟩,
        ⟨["fetch", side.remote_name, side.branch_name], []⟩]) := by
  simp [fetch_side_channel, ensure_remote_exists, h]

/-- One retry-loop iteration whose tree computation and commit build
succeed: the result is the push classification and the trace is the tip
lookup, the merge commands, the commit build (parent: looked-up tip, or
recorded HEAD when absent) and the push of the trimmed hash. -/
theorem attempt_staged (env : GitEnv) (i : Nat)
    (lh lt rref dest msg : String) (side : SideChannelConfig)
    (t craw : String)
    (hm : (merge_side_tip_into_snapshot env i lh lt (env.sideTipAt i)).1 =
      .ok t)
    (hc : env.commitTreeFn t (some ((env.sideTipAt i).getD lh)) msg =
      .ok craw) :
    side_channel_attempt env i lh lt rref dest msg side =
      (pushClass env.repoDisplay (env.pushAt i),
       ⟨["rev-parse", "--verify", "--quiet", rref], []⟩ ::
         ((merge_side_tip_into_snapshot env i lh lt (env.sideTipAt i)).2 ++
          [⟨["commit-tree", t, "-m", msg, "-p",
             (env.sideTipAt i).getD lh], []⟩] ++
          [⟨["push", side.remote_name, rustTrim craw ++ ":" ++ dest],
            []⟩])) := by
  simp [side_channel_attempt, commit_tree, hm, hc,
    push_side_channel_commit_eq]

theorem cmdName_mk (a : String) (args : List String)
    (e : List (String × String)) : cmdName ⟨a :: args, e⟩ = a := rfl

/-- C3: the push loop makes at most two attempts.  A first-attempt
rejection classified non-fast-forward (the combined stderr/stdout
mentions `non-fast-forward` or `[rejected]`) triggers exactly one
re-fetch of the auxiliary branch and a restart from the side-tip lookup
(a second `rev-parse --verify`); the same rejection on the retry fails
the sync with the raced error; any other push failure fails the sync
immediately with the push error. -/
theorem sync_push_retry_spec (env : GitEnv) (idxPath : String)
    (side : SideChannelConfig) (iu : Bool) (msg : String)
    (u rt ad wt rp t0 c0 t1 c1 : String)
    (h1 : env.remoteGetUrl = .ok u)
    (h2 : env.readTreeHead = .ok rt)
    (h3 : (if iu then env.stageAllOut else env.stageTrackedOut) = .ok ad)
    (h4 : env.diffCachedExit = some true)
    (h5 : env.writeTreeOut = .ok wt)
    (h6 : env.revParseHead = .ok rp)
    (h7 : (merge_side_tip_into_snapshot env 0 (rustTrim rp) (rustTrim wt)
      (env.sideTipAt 0)).1 = .ok t0)
    (h8 : env.commitTreeFn t0 (some ((env.sideTipAt 0).getD (rustTrim rp)))
      msg = .ok c0)
    (h9 : (merge_side_tip_into_snapshot env 1 (rustTrim rp) (rustTrim wt)
      (env.sideTipAt 1)).1 = .ok t1)
    (h10 : env.commitTreeFn t1 (some ((env.sideTipAt 1).getD (rustTrim rp)))
      msg = .ok c1) :
    (side_channel_sync env idxPath side iu msg).1 =
      (match pushClass env.repoDisplay (env.pushAt 0) with
       | .error e => .error e
       | .ok .Pushed => .ok .Pushed
       | .ok .NonFastForward =>
         match (fetch_side_channel env side).1 with
         | .error e => .error e
         | .ok _ =>
           match pushClass env.repoDisplay (env.pushAt 1) with
           | .error e => .error e
           | .ok .Pushed => .ok .Pushed
           | .ok .NonFastForward =>
             .error "side-channel push rejected after retry because branch advanced concurrently") ∧
    cmdCount (side_channel_sync env idxPath side iu msg).2 "push" =
      (match pushClass env.repoDisplay (env.pushAt 0) with
       | .ok .NonFastForward =>
         match (fetch_side_channel env side).1 with
         | .ok _ => 2
         | .error _ => 1
       | _ => 1) ∧
    cmdCount (side_channel_sync env idxPath side iu msg).2 "fetch" =
      (match pushClass env.repoDisplay (env.pushAt 0) with
       | .ok .NonFastForward => 1
       | _ => 0) ∧
    tipLookupCount (side_channel_sync env idxPath side iu msg).2 =
      (match pushClass env.repoDisplay (env.pushAt 0) with
       | .ok .NonFastForward =>
         match (fetch_side_channel env side).1 with
         | .ok _ => 2
         | .error _ => 1
       | _ => 1) := by
  have ha0 := attempt_staged env 0 (rustTrim rp) (rustTrim wt)
    (side.remote_name ++ "/" ++ side.branch_name)
    (destinationRef side.branch_name) msg side t0 c0 h7 h8
  have ha1 := attempt_staged env 1 (rustTrim rp) (rustTrim wt)
    (side.remote_name ++ "/" ++ side.branch_name)
    (destinationRef side.branch_name) msg side t1 c1 h9 h10
  have hfe := fetch_staged env side u h1
  cases hp0 : pushClass env.repoDisplay (env.pushAt 0) with
  | error e0 =>
    refine ⟨?_, ?_, ?_, ?_⟩ <;>
      simp [side_channel_sync, ensure_remote_exists,
        has_staged_changes_with_env, h1, h2, h3, h4, h5, h6, ha0, hp0,
        cmdCount, tipLookupCount, cmdName_mk, decide_eq_true_eq,
        merge_filter_push, merge_filter_fetch, merge_filter_tip_lookup]
  | ok p0 =>
    cases p0 with
    | Pushed =>
      refine ⟨?_, ?_, ?_, ?_⟩ <;>
        simp [side_channel_sync, ensure_remote_exists,
          has_staged_changes_with_env, h1, h2, h3, h4, h5, h6, ha0, hp0,
          cmdCount, tipLookupCount, cmdName_mk, decide_eq_true_eq,
        merge_filter_push, merge_filter_fetch, merge_filter_tip_lookup]
    | NonFastForward =>
      cases hfb : env.fetchBranchOut with
      | error ef =>
        refine ⟨?_, ?_, ?_, ?_⟩ <;>
          simp [side_channel_sync, ensure_remote_exists,
            has_staged_changes_with_env, h1, h2, h3, h4, h5, h6, ha0, hp0,
            hfe, hfb, cmdCount, tipLookupCount, cmdName_mk, decide_eq_true_eq,
        merge_filter_push, merge_filter_fetch, merge_filter_tip_lookup]
      | ok uf =>
        cases hp1 : pushClass env.repoDisplay (env.pushAt 1) with
        | error e1 =>
          refine ⟨?_, ?_, ?_, ?_⟩ <;>
            simp [side_channel_sync, ensure_remote_exists,
              has_staged_changes_with_env, h1, h2, h3, h4, h5, h6, ha0, ha1,
              hp0, hp1, hfe, hfb, cmdCount, tipLookupCount, cmdName_mk, decide_eq_true_eq,
        merge_filter_push, merge_filter_fetch, merge_filter_tip_lookup]
        | ok p1 =>
          cases p1 <;>
            (refine ⟨?_, ?_, ?_, ?_⟩ <;>
              simp [side_channel_sync, ensure_remote_exists,
                has_staged_changes_with_env, h1, h2, h3, h4, h5, h6, ha0,
                ha1, hp0, hp1, hfe, hfb, cmdCount, tipLookupCount, cmdName_mk, decide_eq_true_eq,
                merge_filter_push, merge_filter_fetch,
                merge_filter_tip_lookup])

/-- A raced run: the side branch is first absent, the first push is
rejected non-fast-forward, the re-fetched tip is `s1`, and the retry
push succeeds. -/
def envRaceRetry : GitEnv :=
  { envFreshBranch with
    sideTipAt := fun i => if i = 0 then none else some "s1",
    pushAt := fun i =>
      if i = 0 then
        ⟨false, "", " ! [rejected]  sync -> sync (non-fast-forward)"⟩
      else ⟨true, "", ""⟩ }

/-- Witness for C3: the raced run re-fetches once, looks the tip up
twice, pushes twice, and succeeds on the retry. -/
theorem sync_push_retry_spec_witness :
    (side_channel_sync envRaceRetry "/tmp/idx0" sideCfg false "m").1 =
      .ok .Pushed ∧
    cmdCount (side_channel_sync envRaceRetry "/tmp/idx0" sideCfg false
      "m").2 "push" = 2 ∧
    cmdCount (side_channel_sync envRaceRetry "/tmp/idx0" sideCfg false
      "m").2 "fetch" = 1 ∧
    tipLookupCount (side_channel_sync envRaceRetry "/tmp/idx0" sideCfg false
      "m").2 = 2 := by
  obtain ⟨hres, hp, hf, ht⟩ := sync_push_retry_spec envRaceRetry "/tmp/idx0"
    sideCfg false "m" "url\n" "" "" "t-local\n" "h-local\n" "t-local"
    "c<t-local|h-local|m>\n" "t-merged" "c<t-merged|s1|m>\n"
    (by decide) (by decide) (by decide) (by decide) (by decide) (by decide)
    (by decide) (by decide) (by decide) (by decide)
  exact ⟨hres.trans (by decide), hp.trans (by decide), hf.trans (by decide),
    ht.trans (by decide)⟩

/-- The mid-loop re-fetch builds no commit object. -/
theorem fetch_not_commit_tree (env : GitEnv) (side : SideChannelConfig) :
    ∀ c ∈ (fetch_side_channel env side).2, cmdName c ≠ "commit-tree" := by
  intro c hc
  simp only [fetch_side_channel, ensure_remote_exists] at hc
  split at hc <;> simp at hc
  · simp [hc, cmdName]
  · rcases hc with rfl | rfl <;> simp [cmdName]

/-- Every commit object built inside one attempt carries exactly one
parent flag. -/
theorem attempt_commit_shape (env : GitEnv) (i : Nat)
    (lh lt rref dest msg : String) (side : SideChannelConfig) :
    ∀ c ∈ (side_channel_attempt env i lh lt rref dest msg side).2,
      cmdName c = "commit-tree" →
      ∃ t m p, c.args = ["commit-tree", t, "-m", m, "-p", p] := by
  intro c hc hname
  rcases attempt_cmd_forms env i lh lt rref dest msg side c hc with
    rfl | h | ⟨t, rfl⟩ | ⟨hsh, rfl⟩
  · simp [cmdName] at hname
  · rcases merge_cmd_forms env i lh lt _ c h with
      ⟨tip, _, rfl⟩ | ⟨tip, _, rfl⟩ | rfl | ⟨tip, b, lc, _, rfl⟩
    · simp [cmdName] at hname
    · simp [cmdName] at hname
    · exact ⟨lt, _, lh, rfl⟩
    · simp [cmdName] at hname
  · exact ⟨t, msg, _, rfl⟩
  · simp [cmdName] at hname

/-- C4: every commit object the engine builds has exactly one parent,
and the commit it publishes (the hash pushed to the destination ref) is
built with parent `S` — the looked-up side tip — when the side branch
resolves locally, and with the recorded local HEAD `H_local` otherwise;
on the retry the parent is recomputed from the freshly looked-up tip. -/
theorem published_commit_single_parent (env : GitEnv) (idxPath : String)
    (side : SideChannelConfig) (iu : Bool) (msg : String)
    (u rt ad wt rp t0 c0 t1 c1 : String)
    (h1 : env.remoteGetUrl = .ok u)
    (h2 : env.readTreeHead = .ok rt)
    (h3 : (if iu then env.stageAllOut else env.stageTrackedOut) = .ok ad)
    (h4 : env.diffCachedExit = some true)
    (h5 : env.writeTreeOut = .ok wt)
    (h6 : env.revParseHead = .ok rp)
    (h7 : (merge_side_tip_into_snapshot env 0 (rustTrim rp) (rustTrim wt)
      (env.sideTipAt 0)).1 = .ok t0)
    (h8 : env.commitTreeFn t0 (some ((env.sideTipAt 0).getD (rustTrim rp)))
      msg = .ok c0)
    (h9 : (merge_side_tip_into_snapshot env 1 (rustTrim rp) (rustTrim wt)
      (env.sideTipAt 1)).1 = .ok t1)
    (h10 : env.commitTreeFn t1 (some ((env.sideTipAt 1).getD (rustTrim rp)))
      msg = .ok c1) :
    (∀ c ∈ (side_channel_sync env idxPath side iu msg).2,
      cmdName c = "commit-tree" →
      ∃ t m p, c.args = ["commit-tree", t, "-m", m, "-p", p]) ∧
    ((side_channel_sync env idxPath side iu msg).2.filter
        (fun c => cmdName c = "push")).map GitCmd.args =
      (match pushClass env.repoDisplay (env.pushAt 0) with
       | .ok .NonFastForward =>
         match (fetch_side_channel env side).1 with
         | .ok _ =>
             [["push", side.remote_name,
               rustTrim c0 ++ ":" ++ destinationRef side.branch_name],
              ["push", side.remote_name,
               rustTrim c1 ++ ":" ++ destinationRef side.branch_name]]
         | .error _ =>
             [["push", side.remote_name,
               rustTrim c0 ++ ":" ++ destinationRef side.branch_name]]
       | _ =>
           [["push", side.remote_name,
             rustTrim c0 ++ ":" ++ destinationRef side.branch_name]]) ∧
    (⟨["commit-tree", t0, "-m", msg, "-p",
       (env.sideTipAt 0).getD (rustTrim rp)], []⟩ : GitCmd) ∈
      (side_channel_sync env idxPath side iu msg).2 := by
  have ha0 := attempt_staged env 0 (rustTrim rp) (rustTrim wt)
    (side.remote_name ++ "/" ++ side.branch_name)
    (destinationRef side.branch_name) msg side t0 c0 h7 h8
  have ha1 := attempt_staged env 1 (rustTrim rp) (rustTrim wt)
    (side.remote_name ++ "/" ++ side.branch_name)
    (destinationRef side.branch_name) msg side t1 c1 h9 h10
  have hfe := fetch_staged env side u h1
  refine ⟨?_, ?_, ?_⟩
  · intro c hc hname
    simp only [side_channel_sync, ensure_remote_exists,
      has_staged_changes_with_env] at hc
    repeat' split at hc
    all_goals
      simp only [List.mem_cons, List.mem_append, List.mem_singleton,
        List.not_mem_nil, or_false, or_assoc] at hc
    all_goals
      repeat'
        (first
          | (rcases hc with rfl | hc)
          | (rcases hc with hc | hc))
    all_goals
      first
      | exact attempt_commit_shape env 0 _ _ _ _ msg side c hc hname
      | exact attempt_commit_shape env 1 _ _ _ _ msg side c hc hname
      | exact absurd hname (fetch_not_commit_tree env side c hc)
      | simp [cmdName] at hname
  · cases hp0 : pushClass env.repoDisplay (env.pushAt 0) with
    | error e0 =>
      simp [side_channel_sync, ensure_remote_exists,
        has_staged_changes_with_env, h1, h2, h3, h4, h5, h6, ha0, hp0,
        cmdName_mk, decide_eq_true_eq, merge_filter_push]
    | ok p0 =>
      cases p0 with
      | Pushed =>
        simp [side_channel_sync, ensure_remote_exists,
          has_staged_changes_with_env, h1, h2, h3, h4, h5, h6, ha0, hp0,
          cmdName_mk, decide_eq_true_eq, merge_filter_push]
      | NonFastForward =>
        cases hfb : env.fetchBranchOut with
        | error ef =>
          simp [side_channel_sync, ensure_remote_exists,
            has_staged_changes_with_env, h1, h2, h3, h4, h5, h6, ha0, hp0,
            hfe, hfb, cmdName_mk, decide_eq_true_eq, merge_filter_push]
        | ok uf =>
          cases hp1 : pushClass env.repoDisplay (env.pushAt 1) with
          | error e1 =>
            simp [side_channel_sync, ensure_remote_exists,
              has_staged_changes_with_env, h1, h2, h3, h4, h5, h6, ha0, ha1,
              hp0, hp1, hfe, hfb, cmdName_mk, decide_eq_true_eq,
              merge_filter_push]
          | ok p1 =>
            cases p1 <;>
              simp [side_channel_sync, ensure_remote_exists,
                has_staged_changes_with_env, h1, h2, h3, h4, h5, h6, ha0,
                ha1, hp0, hp1, hfe, hfb, cmdName_mk, decide_eq_true_eq,
                merge_filter_push]
  · cases hp0 : pushClass env.repoDisplay (env.pushAt 0) with
    | error e0 =>
      simp [side_channel_sync, ensure_remote_exists,
        has_staged_changes_with_env, h1, h2, h3, h4, h5, h6, ha0, hp0]
    | ok p0 =>
      cases p0 with
      | Pushed =>
        simp [side_channel_sync, ensure_remote_exists,
          has_staged_changes_with_env, h1, h2, h3, h4, h5, h6, ha0, hp0]
      | NonFastForward =>
        cases hfb : env.fetchBranchOut with
        | error ef =>
          simp [side_channel_sync, ensure_remote_exists,
            has_staged_changes_with_env, h1, h2, h3, h4, h5, h6, ha0, hp0,
            hfe, hfb]
        | ok uf =>
          cases hp1 : pushClass env.repoDisplay (env.pushAt 1) with
          | error e1 =>
            simp [side_channel_sync, ensure_remote_exists,
              has_staged_changes_with_env, h1, h2, h3, h4, h5, h6, ha0, ha1,
              hp0, hp1, hfe, hfb]
          | ok p1 =>
            cases p1 <;>
              simp [side_channel_sync, ensure_remote_exists,
                has_staged_changes_with_env, h1, h2, h3, h4, h5, h6, ha0,
                ha1, hp0, hp1, hfe, hfb]

/-- Witness for C4: in the raced run, the first published commit's
parent is the recorded HEAD (tip absent) and the retried one's parent is
the freshly fetched tip `s1`. -/
theorem published_commit_single_parent_witness :
    ((side_channel_sync envRaceRetry "/tmp/idx0" sideCfg false "m").2.filter
        (fun c => cmdName c = "push")).map GitCmd.args =
      [["push", "shephard",
        "c<t-local|h-local|m>:refs/heads/shephard/sync"],
       ["push", "shephard",
        "c<t-merged|s1|m>:refs/heads/shephard/sync"]] ∧
    (⟨["commit-tree", "t-local", "-m", "m", "-p", "h-local"], []⟩ : GitCmd) ∈
      (side_channel_sync envRaceRetry "/tmp/idx0" sideCfg false "m").2 := by
  obtain ⟨-, hmap, hmem⟩ := published_commit_single_parent envRaceRetry
    "/tmp/idx0" sideCfg false "m" "url\n" "" "" "t-local\n" "h-local\n"
    "t-local" "c<t-local|h-local|m>\n" "t-merged" "c<t-merged|s1|m>\n"
    (by decide) (by decide) (by decide) (by decide) (by decide) (by decide)
    (by decide) (by decide) (by decide) (by decide)
  exact ⟨hmap.trans (by decide), by simpa using hmem⟩

/-! ## Commit-message formatter (C9) -/

theorem replaceGo_no_occurrence (pat rep : List Char) :
    ∀ (fuel : Nat) (s : List Char), isInfixL pat s = false →
      replaceGo fuel s pat rep = s := by
  intro fuel
  induction fuel with
  | zero => intro s _; rfl
  | succ n ih =>
    intro s hs
    cases s with
    | nil => rfl
    | cons c rest =>
      simp only [isInfixL, Bool.or_eq_false_iff] at hs
      simp [replaceGo, hs.1, ih rest hs.2]

/-- A pattern that does not occur in the string is not replaced. -/
theorem rustReplace_no_occurrence (s pat rep : String)
    (h : isInfixL pat.data s.data = false) : rustReplace s pat rep = s := by
  unfold rustReplace
  split
  · rfl
  · rw [replaceGo_no_occurrence pat.data rep.data s.data.length s.data h]

/-- C9 counterexample: with an empty hostname (the spec's value when the
hostname is unavailable), the template `{sco{hostname}pe}` becomes
`{scope}` after the `{hostname}` pass and the `{scope}` pass then
rewrites it to `tracked`; under the claim's simultaneous reading the
output is `{scope}` left verbatim.  The two readings disagree, so the
claim as stated is false. -/
theorem commit_message_formatter_counterexample :
    generate_commit_message_with "\x7bsco\x7bhostname\x7dpe\x7d" "t" ""
      false = "tracked" ∧
    claimCommitMessage "\x7bsco\x7bhostname\x7dpe\x7d" "t" "" false =
      "\x7bscope\x7d" ∧
    generate_commit_message_with "\x7bsco\x7bhostname\x7dpe\x7d" "t" ""
      false ≠
      claimCommitMessage "\x7bsco\x7bhostname\x7dpe\x7d" "t" "" false :=
  ⟨by decide, by decide, by decide⟩

/-- C9 amended: the formatter applies the three literal substitutions
sequentially — `{timestamp}` first, then `{hostname}`, then `{scope}`
(each pass replacing leftmost non-overlapping occurrences, with no
escaping) — so placeholder text formed by an earlier substitution is
rewritten by a later pass; a template containing none of the three
placeholders is returned verbatim (unknown placeholders untouched). -/
theorem commit_message_formatter (template ts hostName : String)
    (iu : Bool)
    (hn1 : isInfixL "\x7btimestamp\x7d".data template.data = false)
    (hn2 : isInfixL "\x7bhostname\x7d".data template.data = false)
    (hn3 : isInfixL "\x7bscope\x7d".data template.data = false) :
    generate_commit_message_with template ts hostName iu =
      rustReplace
        (rustReplace (rustReplace template "\x7btimestamp\x7d" ts)
          "\x7bhostname\x7d" hostName)
        "\x7bscope\x7d" (if iu then "all" else "tracked") ∧
    generate_commit_message_with template ts hostName iu = template := by
  refine ⟨rfl, ?_⟩
  unfold generate_commit_message_with
  rw [rustReplace_no_occurrence template _ _ hn1,
    rustReplace_no_occurrence template _ _ hn2,
    rustReplace_no_occurrence template _ _ hn3]

/-- Witness for the amended C9: a template without any of the three
placeholders passes through unchanged. -/
theorem commit_message_formatter_witness :
    generate_commit_message_with "snapshot of [work]" "2026-10-12" "box"
      true = "snapshot of [work]" :=
  (commit_message_formatter "snapshot of [work]" "2026-10-12" "box" true
    (by decide) (by decide) (by decide)).2

/-! ## Configuration validation (C10) -/

/-- A repository entry whose side-channel override is whitespace-only
makes the per-repository validation loop fail, wherever it sits in the
list (an earlier entry may fail first, but the load still fails). -/
theorem validateRepos_rejects (canon : String → String) :
    ∀ (l : List ResolvedRepositoryConfig) (idx : Nat) (seen : List String),
      (∃ repo ∈ l,
        (∃ r, repo.side_channel.remote_name = some r ∧
          trimIsEmpty r = true) ∨
        (∃ b, repo.side_channel.branch_name = some b ∧
          trimIsEmpty b = true)) →
      ∃ e, validateRepos canon idx seen l = .error e := by
  intro l
  induction l with
  | nil =>
    intro idx seen h
    rcases h with ⟨repo, hmem, _⟩
    simp at hmem
  | cons repo rest ih =>
    intro idx seen h
    unfold validateRepos
    by_cases hp : repo.path.isEmpty = true
    · rw [if_pos hp]; exact ⟨_, rfl⟩
    · rw [if_neg hp]
      by_cases hd : seen.contains (canon repo.path) = true
      · rw [if_pos hd]; exact ⟨_, rfl⟩
      · rw [if_neg hd]
        by_cases hr : (match repo.side_channel.remote_name with
          | some r => trimIsEmpty r
          | none => false) = true
        · rw [if_pos hr]; exact ⟨_, rfl⟩
        · rw [if_neg hr]
          by_cases hb : (match repo.side_channel.branch_name with
            | some b => trimIsEmpty b
            | none => false) = true
          · rw [if_pos hb]; exact ⟨_, rfl⟩
          · rw [if_neg hb]
            rcases h with ⟨repo', hmem, hoff⟩
            rcases List.mem_cons.mp hmem with rfl | hmem'
            · exfalso
              rcases hoff with ⟨r, hsome, htrim⟩ | ⟨b, hsome, htrim⟩
              · exact hr (by simp [hsome, htrim])
              · exact hb (by simp [hsome, htrim])
            · exact ih (idx + 1) (canon repo.path :: seen)
                ⟨repo', hmem', hoff⟩

/-- C10: configuration validation rejects every whitespace-only value —
`side_channel.remote_name`, `side_channel.branch_name`,
`commit_template`, and the per-repository side-channel overrides — not
only the empty string: whenever one of these values trims to empty,
`validate` returns an error. -/
theorem validate_rejects_whitespace_only (canon : String → String)
    (cfg : ResolvedConfig)
    (h : trimIsEmpty cfg.side_channel.remote_name = true ∨
      trimIsEmpty cfg.side_channel.branch_name = true ∨
      trimIsEmpty cfg.commit_template = true ∨
      (∃ repo ∈ cfg.repositories,
        (∃ r, repo.side_channel.remote_name = some r ∧
          trimIsEmpty r = true) ∨
        (∃ b, repo.side_channel.branch_name = some b ∧
          trimIsEmpty b = true))) :
    ∃ e, validate canon cfg = .error e := by
  unfold validate
  by_cases h1 : trimIsEmpty cfg.side_channel.remote_name = true
  · rw [if_pos h1]; exact ⟨_, rfl⟩
  · rw [if_neg h1]
    by_cases h2 : trimIsEmpty cfg.side_channel.branch_name = true
    · rw [if_pos h2]; exact ⟨_, rfl⟩
    · rw [if_neg h2]
      by_cases h3 : trimIsEmpty cfg.commit_template = true
      · rw [if_pos h3]; exact ⟨_, rfl⟩
      · rw [if_neg h3]
        rcases h with h | h | h | h
        · exact absurd h h1
        · exact absurd h h2
        · exact absurd h h3
        · exact validateRepos_rejects canon cfg.repositories 0 [] h

/-- Witness for C10: a configuration whose remote name is three spaces
(nonempty, but whitespace-only) is rejected at load time. -/
theorem validate_rejects_whitespace_only_witness :
    ∃ e, validate id
      { default_mode := .SyncAll
        push_enabled := true
        include_untracked := false
        side_channel := ⟨false, "   ", "shephard/sync"⟩
        commit_template := "shephard sync: \x7btimestamp\x7d"
        failure_policy := .Continue
        repositories := [] } = .error e :=
  validate_rejects_whitespace_only id _ (Or.inl (by decide))

/-! ## Workflow dispatch (C8) -/

/-- A workflow oracle where every git operation succeeds and the engine
reports `Pushed`. -/
def wfEnvAllOk : WorkflowEnv :=
  ⟨.ok (), .ok (), .ok .Pushed, .ok (), .ok false, .ok (), .ok ()⟩

/-- Side-channel enabled but the run is pull-only (`push_enabled =
false`). -/
def cfgSideButPullOnly : ResolvedRunConfig :=
  { push_enabled := false
    include_untracked := false
    side_channel := sideCfg
    commit_template := "m"
    failure_policy := .Continue }

/-- Side-channel enabled with pushing enabled. -/
def cfgSideSync : ResolvedRunConfig :=
  { push_enabled := true
    include_untracked := false
    side_channel := sideCfg
    commit_template := "m"
    failure_policy := .Continue }

/-- C8 counterexample: with `side_channel.enabled = true` but
`push_enabled = false`, the runner performs only the fast-forward pull
and returns `Success "pull ok"` — the side-channel engine (§4.C) is not
run even though the repo's effective `side_channel.enabled` is true. -/
theorem run_repo_dispatch_counterexample :
    cfgSideButPullOnly.side_channel.enabled = true ∧
    run_repo wfEnvAllOk "/repo" cfgSideButPullOnly =
      (⟨"/repo", .Success, "pull ok"⟩, [.pullFf]) ∧
    WfAction.sideSync ∉ (run_repo wfEnvAllOk "/repo" cfgSideButPullOnly).2 := by
  refine ⟨rfl, rfl, by decide⟩

/-- C8 amended: after a successful fast-forward pull and only when
`push_enabled` is true, the runner dispatches on the repo's effective
`side_channel.enabled`: the side-channel engine runs iff it is true (and
its preflight succeeded), the straight-path staging runs iff it is
false; when `push_enabled` is false the runner stops after the pull with
`Success "pull ok"`, running neither; the engine outcome is converted
into the `RepoResult` shown. -/
theorem run_repo_dispatch (env : WorkflowEnv) (repo : String)
    (cfg : ResolvedRunConfig) :
    (WfAction.sideSync ∈ (run_repo env repo cfg).2 ↔
      env.pullFfRes = .ok () ∧ cfg.push_enabled = true ∧
      cfg.side_channel.enabled = true ∧ env.preflightRes = .ok ()) ∧
    (WfAction.stage ∈ (run_repo env repo cfg).2 ↔
      env.pullFfRes = .ok () ∧ cfg.push_enabled = true ∧
      cfg.side_channel.enabled = false) ∧
    (env.pullFfRes = .ok () → cfg.push_enabled = true →
      cfg.side_channel.enabled = true → env.preflightRes = .ok () →
      (run_repo env repo cfg).1 =
        match env.sideSyncRes with
        | .ok .Pushed =>
            ⟨repo, .Success, "pull ok, side-channel commit pushed"⟩
        | .ok .NoChanges =>
            ⟨repo, .NoOp, "pull ok, no local changes to commit"⟩
        | .error e => ⟨repo, .Failed, "side-channel sync failed: " ++ e⟩) := by
  cases hpull : env.pullFfRes with
  | error e =>
    refine ⟨?_, ?_, ?_⟩ <;> simp [run_repo, hpull]
  | ok u =>
    cases u
    cases hpe : cfg.push_enabled with
    | false =>
      refine ⟨?_, ?_, ?_⟩ <;> simp [run_repo, hpull, hpe]
    | true =>
      cases hen : cfg.side_channel.enabled with
      | true =>
        cases hpre : env.preflightRes with
        | error e =>
          refine ⟨?_, ?_, ?_⟩ <;> simp [run_repo, hpull, hpe, hen, hpre]
        | ok u2 =>
          cases u2
          cases hs : env.sideSyncRes with
          | error e =>
            refine ⟨?_, ?_, ?_⟩ <;>
              simp [run_repo, hpull, hpe, hen, hpre, hs]
          | ok r =>
            cases r <;>
              (refine ⟨?_, ?_, ?_⟩ <;>
                simp [run_repo, hpull, hpe, hen, hpre, hs])
      | false =>
        cases hst : env.stageRes with
        | error e =>
          refine ⟨?_, ?_, ?_⟩ <;> simp [run_repo, hpull, hpe, hen, hst]
        | ok u1 =>
          cases u1
          cases hhs : env.hasStagedRes with
          | error e =>
            refine ⟨?_, ?_, ?_⟩ <;>
              simp [run_repo, hpull, hpe, hen, hst, hhs]
          | ok b =>
            cases b with
            | false =>
              cases hpu : env.pushRes with
              | error e =>
                refine ⟨?_, ?_, ?_⟩ <;>
                  simp [run_repo, hpull, hpe, hen, hst, hhs, hpu]
              | ok u3 =>
                cases u3
                refine ⟨?_, ?_, ?_⟩ <;>
                  simp [run_repo, hpull, hpe, hen, hst, hhs, hpu]
            | true =>
              cases hcm : env.commitRes with
              | error e =>
                refine ⟨?_, ?_, ?_⟩ <;>
                  simp [run_repo, hpull, hpe, hen, hst, hhs, hcm]
              | ok u4 =>
                cases u4
                cases hpu : env.pushRes with
                | error e =>
                  refine ⟨?_, ?_, ?_⟩ <;>
                    simp [run_repo, hpull, hpe, hen, hst, hhs, hcm, hpu]
                | ok u3 =>
                  cases u3
                  refine ⟨?_, ?_, ?_⟩ <;>
                    simp [run_repo, hpull, hpe, hen, hst, hhs, hcm, hpu]

/-- Witness for the amended C8: with pushing enabled and side-channel
enabled, the engine runs and its `Pushed` outcome is converted into the
success result. -/
theorem run_repo_dispatch_witness :
    WfAction.sideSync ∈ (run_repo wfEnvAllOk "/repo" cfgSideSync).2 ∧
    (run_repo wfEnvAllOk "/repo" cfgSideSync).1 =
      ⟨"/repo", .Success, "pull ok, side-channel commit pushed"⟩ := by
  have h := run_repo_dispatch wfEnvAllOk "/repo" cfgSideSync
  exact ⟨h.1.mpr ⟨rfl, rfl, rfl, rfl⟩,
    (h.2.2 rfl rfl rfl rfl).trans (by decide)⟩

/-! ## Running the sync twice back-to-back (C7)

`side_channel_sync` never writes the working tree, HEAD or the primary
index (C2), so a second run with no intervening user activity sees the
identical staging pipeline; the only difference is that the remote side
branch — and the local remote-tracking ref, which `git push` updates on
success — now points at the commit `c1` published by the first run.
`envSecondRun` below is `envFreshBranch` advanced by exactly that
publication:

  * `sideTipAt` now resolves to `c1 = c<t-local|h-local|m>`, the commit
    the first run pushed (tree `t-local`, parent `h-local`);
  * `isAncestorAt` stays false: `c1` is a fresh commit with parent
    `h-local` and a tree different from HEAD's, so it is not an ancestor
    of the unchanged HEAD `h-local`;
  * `merge-base(h-local, c1) = h-local`, since `c1`'s parent chain
    starts at `h-local`;
  * the write-tree merge of the unchanged snapshot (tree `t-local`) with
    `c1` (also tree `t-local`) over base `h-local` merges two identical
    trees: clean, yielding `t-local`. -/
def envSecondRun : GitEnv :=
  { envFreshBranch with
    sideTipAt := fun _ => some "c<t-local|h-local|m>",
    mergeBaseAt := fun _ _ _ => .ok "h-local\n",
    mergeTreeAt := fun _ _ _ _ => ⟨true, "t-local\n", ""⟩ }

/-- C7 counterexample: on a repository whose working tree stays dirty
relative to HEAD, the first sync pushes — and the second sync, run
back-to-back with no intervening change to the working tree, HEAD, or
the remote (beyond the first run's own push), pushes again instead of
returning `NoChanges`: the dirty check compares the snapshot index
against HEAD, not against the side-channel tip. -/
theorem sync_twice_counterexample :
    (side_channel_sync envFreshBranch "/tmp/idx0" sideCfg false "m").1 =
      .ok .Pushed ∧
    (side_channel_sync envSecondRun "/tmp/idx0" sideCfg false "m").1 =
      .ok .Pushed ∧
    (side_channel_sync envSecondRun "/tmp/idx0" sideCfg false "m").1 ≠
      .ok .NoChanges :=
  ⟨by decide, by decide, by decide⟩

/-- A repository with snapshot tree `lt`, recorded HEAD `lh`, dirtiness
`hasChanges`, no side branch yet, and succeeding pushes.  `ctf` is the
content-addressed commit builder (`git commit-tree`). -/
def firstRunEnv (hasChanges : Bool) (lt lh : String)
    (ctf : String → Option String → String → Except String String) :
    GitEnv where
  repoDisplay := "/repo"
  remoteGetUrl := .ok "url\n"
  readTreeHead := .ok ""
  stageAllOut := .ok ""
  stageTrackedOut := .ok ""
  diffCachedExit := some hasChanges
  writeTreeOut := .ok lt
  revParseHead := .ok lh
  sideTipAt := fun _ => none
  isAncestorAt := fun _ _ _ => .ok false
  mergeBaseAt := fun _ _ _ => .ok lh
  commitTreeFn := ctf
  mergeTreeAt := fun _ _ _ _ => ⟨true, lt ++ "\n", ""⟩
  pushAt := fun _ => ⟨true, "", ""⟩
  fetchBranchOut := .ok ""

/-- The same repository immediately after the first run, with no
intervening change: when the first run pushed (`hasChanges`), the side
tip now resolves to its commit `c1`; everything derived from the working
tree, HEAD and the primary index is unchanged.  The ancestry, merge-base
and merge-tree oracles of `firstRunEnv` already encode the git facts for
this world: `c1` (parent `lh`) is no ancestor of the unchanged HEAD,
`merge-base(lh, c1) = lh`, and merging the identical snapshot trees is
clean. -/
def secondRunEnv (hasChanges : Bool) (lt lh c1 : String)
    (ctf : String → Option String → String → Except String String) :
    GitEnv :=
  { firstRunEnv hasChanges lt lh ctf with
    sideTipAt := fun _ => if hasChanges then some c1 else none }

/-- C7 amended: running the sync twice back-to-back with no intervening
change to the working tree, HEAD or the remote, the first run returns
`Pushed` when the snapshot differs from HEAD and `NoChanges` otherwise —
and the second run returns the SAME result, not necessarily
`NoChanges`: it returns `NoChanges` iff the first run did.  When the
first run pushed, the second run's dirty check (snapshot vs HEAD, not vs
the side tip) still reports changes, and the run publishes a duplicate
snapshot commit on top of the first run's commit and returns `Pushed`. -/
theorem sync_twice_second_run (hasChanges : Bool)
    (lt lh msg idx : String) (side : SideChannelConfig)
    (ctf : String → Option String → String → Except String String)
    (c1raw ctw c2raw : String)
    (hlt : rustTrim lt = lt) (hlh : rustTrim lh = lh) (hne : lt ≠ "")
    (hlines : rustLines (lt ++ "\n") = [lt])
    (hc1 : ctf lt (some lh) msg = .ok c1raw)
    (hctw : ctf lt (some lh) "shephard side-channel local snapshot" =
      .ok ctw)
    (hc2 : ctf lt (some (rustTrim c1raw)) msg = .ok c2raw) :
    (side_channel_sync (firstRunEnv hasChanges lt lh ctf) idx side false
      msg).1 = .ok (if hasChanges then .Pushed else .NoChanges) ∧
    (side_channel_sync
      (secondRunEnv hasChanges lt lh (rustTrim c1raw) ctf) idx side false
      msg).1 = .ok (if hasChanges then .Pushed else .NoChanges) ∧
    ((side_channel_sync
        (secondRunEnv hasChanges lt lh (rustTrim c1raw) ctf) idx side false
        msg).1 = .ok .NoChanges ↔
      (side_channel_sync (firstRunEnv hasChanges lt lh ctf) idx side false
        msg).1 = .ok .NoChanges) := by
  cases hasChanges with
  | false =>
    refine ⟨?_, ?_, ?_⟩ <;>
      simp [side_channel_sync, ensure_remote_exists,
        has_staged_changes_with_env, firstRunEnv, secondRunEnv]
  | true =>
    have h1 : (side_channel_sync (firstRunEnv true lt lh ctf) idx side
        false msg).1 = .ok .Pushed := by
      simp [side_channel_sync, side_channel_attempt,
        merge_side_tip_into_snapshot, commit_tree,
        push_side_channel_commit, ensure_remote_exists,
        has_staged_changes_with_env, firstRunEnv, hlt, hlh, hc1]
    have h2 : (side_channel_sync
        (secondRunEnv true lt lh (rustTrim c1raw) ctf) idx side false
        msg).1 = .ok .Pushed := by
      simp [side_channel_sync, side_channel_attempt,
        merge_side_tip_into_snapshot, commit_tree,
        push_side_channel_commit, ensure_remote_exists,
        has_staged_changes_with_env, secondRunEnv, firstRunEnv, hlt, hlh,
        hne, hlines, hctw, hc2]
    exact ⟨by simpa using h1, by simpa using h2, by simp [h1, h2]⟩

/-- Witness for the amended C7: concrete dirty repository — both runs
push; neither second run returns `NoChanges`. -/
theorem sync_twice_second_run_witness :
    (side_channel_sync
      (firstRunEnv true "t-local" "h-local" envFreshBranch.commitTreeFn)
      "/tmp/idx0" sideCfg false "m").1 = .ok .Pushed ∧
    (side_channel_sync
      (secondRunEnv true "t-local" "h-local" "c<t-local|h-local|m>"
        envFreshBranch.commitTreeFn)
      "/tmp/idx0" sideCfg false "m").1 = .ok .Pushed := by
  obtain ⟨w1, w2, -⟩ := sync_twice_second_run true "t-local" "h-local" "m"
    "/tmp/idx0" sideCfg envFreshBranch.commitTreeFn
    "c<t-local|h-local|m>\n"
    "c<t-local|h-local|shephard side-channel local snapshot>\n"
    "c<t-local|c<t-local|h-local|m>|m>\n"
    (by decide) (by decide) (by decide) (by decide) (by decide) (by decide)
    (by decide)
  exact ⟨by simpa using w1, by simpa using w2⟩

end Shephard
